import Mathlib

/-!
Verification development for the CerebralOS rule-evaluation engines.

This file gives a shallow embedding of the NTDS event engine
(`cerebralos/ntds_logic/engine.py`) and the protocol engine
(`cerebralos/protocol_engine/engine.py`), together with theorems about the
behaviour of `evaluate_event`, `match_evidence`, `match_evidence_with_details`,
`eval_trigger_criteria`, `eval_required_data_elements`,
`_evaluate_temporal_condition`, `_evaluate_numeric_threshold` and
`_is_negated`.

Leaf subsystems that the engines call but whose internals no theorem depends
on — the regex engine (`re.search` / `re.finditer` over already-compiled
pattern lists), `datetime.strptime`-based timestamp parsing, Python `float()`
parsing, and the per-parameter numeric extraction regex table — are modelled
as explicit function parameters, so every theorem quantifies over their
behaviour; witnesses instantiate them with small concrete functions.
The negation classifier and the historical-context classifier are embedded
concretely, since theorems evaluate them on concrete text.
-/

/-- Python list slicing `l[:n]` (a negative `n` drops elements from the end). -/
def pySlice (n : Int) (l : List α) : List α :=
  if 0 ≤ n then l.take n.toNat else l.take ((l.length : Int) + n).toNat

/-- The evidence-scanning loop shared by the matchers: append each block that
satisfies `pred`, and stop as soon as the hit count has reached `maxHits`
(the source appends first and then checks `len(hits) >= max_hits`, so even
`max_hits <= 0` lets one hit through). -/
def scanEvidence (pred : α → Bool) : Int → List α → List α
  | _, [] => []
  | maxHits, e :: rest =>
    if pred e then
      if maxHits ≤ 1 then [e] else e :: scanEvidence pred (maxHits - 1) rest
    else scanEvidence pred maxHits rest

/-- Python's `a or default` on an optional string: `None` and `""` both fall
through to the default. -/
def pyOr (a : Option String) (d : String) : String :=
  match a with
  | some s => if s = "" then d else s
  | none => d

/-- Source filter used by every matcher: `allowed_set` stays `None` when
`allowed_sources` is `None` or an empty list, in which case no filtering
happens. -/
def sourceOk (allowed : Option (List String)) (st : String) : Bool :=
  match allowed with
  | none => true
  | some l => if l.isEmpty then true else l.contains st

namespace NTDS

/-- One clinical evidence block (`ntds_logic/model.py` `Evidence`).  The
`SourceType` enum has `name = value` for every member, so it is modelled as
the bare string; `text` is normalised to `""` for `None` as every consumer
does via `e.text or ""`. -/
structure Evidence where
  sourceType : String
  timestamp : Option String
  text : String
deriving DecidableEq

/-- `PatientFacts`: the `facts` dict is split into the `query_patterns`
pattern map and the scalar string facts (e.g. `arrival_time`). -/
structure PatientFacts where
  queryPatterns : List (String × List String)
  scalars : List (String × String)
  evidence : List Evidence

/-- `_patterns_for_key`: look the key up in `facts["query_patterns"]`;
a missing key or an empty list yields no patterns. -/
def patternsForKey (p : PatientFacts) (key : String) : List String :=
  match p.queryPatterns.lookup key with
  | some pats => pats
  | none => []

/-- `match_evidence` of the NTDS engine: with `S` the regex-search leaf
(`compiled.search(txt)` on one pattern), collect up to `max_hits` evidence
blocks whose text matches any pattern of the key, in original order. -/
def matchEvidence (S : String → String → Bool) (patient : PatientFacts) (key : String)
    (allowed : Option (List String)) (maxHits : Int) : List Evidence :=
  let pats := patternsForKey patient key
  if pats.isEmpty then []
  else
    scanEvidence
      (fun e => sourceOk allowed e.sourceType && pats.any (fun p => S p e.text))
      maxHits patient.evidence

/-- `line_matches_any`. -/
def lineMatchesAny (S : String → String → Bool) (patient : PatientFacts)
    (text : String) (key : String) : Bool :=
  let pats := patternsForKey patient key
  if pats.isEmpty then false else pats.any (fun p => S p text)

/-- An exclusion record as `evaluate_event` reads it from
`event_rules["exclusions"]`. -/
structure Excl where
  gateType : String
  ruleId : Option String := none
  gateId : Option String := none
  reason : Option String := none
  queryKeys : List String := []
  requireContextKeys : List String := []
deriving DecidableEq

structure HardStop where
  ruleId : String
  reason : String
  evidence : List Evidence
deriving DecidableEq

structure GateResult where
  gate : String
  passed : Bool
  reason : String
  evidence : List Evidence
deriving DecidableEq

/-- The engine contract configuration (`contract_v1.json` keys the engine
reads): `evidence.max_items_per_gate`, `outcomes.allowed`, and
`outcomes.defaults.missing_required_data`. -/
structure Contract where
  maxItemsPerGate : Int := 8
  allowed : List String := []
  missingDefault : String := "UNABLE_TO_DETERMINE"

/-- The query-key loop of `eval_exclude_if_any`. -/
def exclGo (S : String → String → Bool) (c : Contract) (patient : PatientFacts)
    (ex : Excl) : List String → Option HardStop
  | [] => none
  | qk :: rest =>
    let hits := matchEvidence S patient qk none 50
    if hits.isEmpty then exclGo S c patient ex rest
    else
      let filtered :=
        if ex.requireContextKeys.isEmpty then hits
        else hits.filter (fun e =>
          ex.requireContextKeys.any (fun ctx => lineMatchesAny S patient e.text ctx))
      if filtered.isEmpty then exclGo S c patient ex rest
      else some ⟨pyOr ex.ruleId (pyOr ex.gateId "EXCLUSION"),
                 pyOr ex.reason "Excluded per NTDS rule",
                 pySlice c.maxItemsPerGate filtered⟩

/-- `eval_exclude_if_any`: hard-stop exclusion; a hit on a query key survives
only if (when `require_context_keys` is present) the same block also matches
a context key. -/
def evalExcludeIfAny (S : String → String → Bool) (c : Contract)
    (patient : PatientFacts) (ex : Excl) : Option HardStop :=
  exclGo S c patient ex ex.queryKeys

/-- A gate record as `evaluate_event` reads it, with the source's defaults. -/
structure Gate where
  gateType : String
  gateId : String := ""
  required : Bool := true
  minCount : Int := 1
  allowedSources : Option (List String) := none
  queryKeys : List String := []
  queryKey : String := ""
  failReason : Option String := none
  failOutcome : Option String := none
  passOutcome : Option String := none
  passReason : Option String := none
  timestampRequired : Bool := true
  arrivalField : String := "arrival_time"
deriving DecidableEq

/-- `eval_evidence_any`. -/
def evalEvidenceAny (S : String → String → Bool) (c : Contract)
    (patient : PatientFacts) (g : Gate) : GateResult :=
  let hits := (g.queryKeys.map (fun qk => matchEvidence S patient qk g.allowedSources 8)).flatten
  let passed : Bool := g.minCount ≤ (hits.length : Int)
  ⟨g.gateId, passed,
   if passed then "Evidence found." else pyOr g.failReason "Required evidence not found.",
   pySlice c.maxItemsPerGate hits⟩

/-- `parse_ts` returns a datetime that is timezone-aware exactly for the
trailing-`Z` format; the leaf parameter returns the parsed instant together
with that awareness flag.  `is_after` yields `None` when either side is
unparseable or the awareness flags differ. -/
def isAfter (parseTs : String → Option (Rat × Bool)) (arrival evTs : Option String) :
    Option Bool :=
  match arrival.bind parseTs, evTs.bind parseTs with
  | some (ta, za), some (tb, zb) => if za ≠ zb then none else some (ta < tb)
  | _, _ => none

/-- A scalar fact looked up and then passed through Python truthiness
(`str(v) if v else None`). -/
def truthyFact (scalars : List (String × String)) (field : String) : Option String :=
  match scalars.lookup field with
  | some s => if s = "" then none else some s
  | none => none

/-- The in-order partition of the timing gate's hits: evidence timestamped
after arrival, and the rest. -/
def timingAfter (parseTs : String → Option (Rat × Bool)) (arrival : Option String)
    (hits : List Evidence) : List Evidence :=
  hits.filter (fun e => isAfter parseTs arrival e.timestamp = some true)

def timingUnknown (parseTs : String → Option (Rat × Bool)) (arrival : Option String)
    (hits : List Evidence) : List Evidence :=
  hits.filter (fun e => !(isAfter parseTs arrival e.timestamp = some true))

def evalTimingAfterArrival (S : String → String → Bool)
    (parseTs : String → Option (Rat × Bool)) (c : Contract)
    (patient : PatientFacts) (g : Gate) : GateResult :=
  if (matchEvidence S patient g.queryKey g.allowedSources 8).isEmpty then
    ⟨g.gateId, false, "No onset evidence found.", []⟩
  else if !(timingAfter parseTs (truthyFact patient.scalars g.arrivalField)
             (matchEvidence S patient g.queryKey g.allowedSources 8)).isEmpty then
    ⟨g.gateId, true, "Onset evidence timestamped after arrival.",
     pySlice c.maxItemsPerGate
       (timingAfter parseTs (truthyFact patient.scalars g.arrivalField)
         (matchEvidence S patient g.queryKey g.allowedSources 8))⟩
  else if g.timestampRequired then
    ⟨g.gateId, false, pyOr g.failReason "Cannot prove timing after arrival.",
     pySlice c.maxItemsPerGate
       (timingUnknown parseTs (truthyFact patient.scalars g.arrivalField)
         (matchEvidence S patient g.queryKey g.allowedSources 8))⟩
  else
    ⟨g.gateId, false, "Timing not proven after arrival.",
     pySlice c.maxItemsPerGate
       (timingUnknown parseTs (truthyFact patient.scalars g.arrivalField)
         (matchEvidence S patient g.queryKey g.allowedSources 8))⟩

/-- `eval_requires_treatment_any`. -/
def evalRequiresTreatmentAny (S : String → String → Bool) (c : Contract)
    (patient : PatientFacts) (g : Gate) : GateResult :=
  let hits := (g.queryKeys.map (fun qk => matchEvidence S patient qk g.allowedSources 8)).flatten
  let passed : Bool := g.minCount ≤ (hits.length : Int)
  ⟨g.gateId, passed,
   if passed then "Treatment evidence found." else pyOr g.failReason "Required treatment not found.",
   pySlice c.maxItemsPerGate hits⟩

/-- The gate-type dispatch of `evaluate_event`. -/
def evalGate (S : String → String → Bool) (parseTs : String → Option (Rat × Bool))
    (c : Contract) (patient : PatientFacts) (g : Gate) : GateResult :=
  if g.gateType = "evidence_any" then evalEvidenceAny S c patient g
  else if g.gateType = "timing_after_arrival" then evalTimingAfterArrival S parseTs c patient g
  else if g.gateType = "requires_treatment_any" then evalRequiresTreatmentAny S c patient g
  else ⟨g.gateId, false, "Unknown gate_type: " ++ g.gateType, []⟩

/-- The `Outcome` enum of `ntds_logic/model.py`. -/
inductive Outcome where
  | YES
  | NO
  | EXCLUDED
  | UNABLE_TO_DETERMINE
  | NOT_EVALUATED
deriving DecidableEq

/-- `Outcome(token)`: enum construction from the value string, `none` when
the token is not a member (Python raises `ValueError` there). -/
def Outcome.ofString? (s : String) : Option Outcome :=
  if s = "YES" then some .YES
  else if s = "NO" then some .NO
  else if s = "EXCLUDED" then some .EXCLUDED
  else if s = "UNABLE_TO_DETERMINE" then some .UNABLE_TO_DETERMINE
  else if s = "NOT_EVALUATED" then some .NOT_EVALUATED
  else none

structure EventResult where
  eventId : Int
  outcome : Outcome
  hardStop : Option HardStop := none
  gateTrace : List GateResult := []
  warnings : List String := []
deriving DecidableEq

structure EventRules where
  eventId : Int := 0
  exclusions : List Excl := []
  gates : List Gate := []

/-- Python truthiness of the `pass_outcome` field. -/
def passTruthy (g : Gate) : Bool :=
  match g.passOutcome with
  | some s => s ≠ ""
  | none => false

/-- `str.upper()` (ASCII view, as outcome tokens are ASCII). -/
def pyUpper (s : String) : String := String.mk (s.data.map Char.toUpper)

/-- Lines 303-308 of `evaluate_event`: the failing-required-gate outcome
token — the gate's `fail_outcome` uppercased if that token is in
`outcomes.allowed`, otherwise `outcomes.defaults.missing_required_data`. -/
def resolveFailOutcome (g : Gate) (c : Contract) : String :=
  let fo := pyUpper (g.failOutcome.getD "UNABLE_TO_DETERMINE")
  if c.allowed.contains fo then fo else c.missingDefault

/-- Lines 282-287: the analogous resolution for a `pass_outcome` token. -/
def resolvePassOutcome (g : Gate) (c : Contract) : String :=
  let up := pyUpper (g.passOutcome.getD "")
  if c.allowed.contains up then up else c.missingDefault

/-- The `pass_outcome` early-exit outcome, `none` when the block does not
fire or when `Outcome(...)` would raise (the source wraps the whole block in
`try/except` and falls through to the normal flow on failure). -/
def passResolve (g : Gate) (gr : GateResult) (c : Contract) : Option Outcome :=
  if passTruthy g && gr.passed then Outcome.ofString? (resolvePassOutcome g c) else none

/-- The HardStop-like audit record attached on the `pass_outcome` path. -/
def passHardStop (g : Gate) (gr : GateResult) (c : Contract) : HardStop :=
  ⟨if g.gateId = "" then "PASS_OUTCOME" else g.gateId,
   pyOr g.passReason ("Gate " ++ g.gateId ++ " passed with pass_outcome=" ++ resolvePassOutcome g c),
   gr.evidence⟩

/-- One gate neither early-exits via `pass_outcome` nor halts as a failing
required gate, so the loop continues past it. -/
def gateContinues (S : String → String → Bool) (parseTs : String → Option (Rat × Bool))
    (c : Contract) (patient : PatientFacts) (g : Gate) : Bool :=
  let gr := evalGate S parseTs c patient g
  (passResolve g gr c).isNone && !(g.required && !gr.passed)

/-- The gate loop of `evaluate_event` (lines 261-313).  The unguarded
`Outcome(fail_outcome)` construction can raise out of the function, modelled
as `Except.error`. -/
def gateLoop (S : String → String → Bool) (parseTs : String → Option (Rat × Bool))
    (c : Contract) (patient : PatientFacts) (eid : Int) :
    List Gate → List GateResult → Except String EventResult
  | [], trace => .ok ⟨eid, .YES, none, trace, []⟩
  | g :: rest, trace =>
    match passResolve g (evalGate S parseTs c patient g) c with
    | some oc =>
      .ok ⟨eid, oc, some (passHardStop g (evalGate S parseTs c patient g) c),
           trace ++ [evalGate S parseTs c patient g], []⟩
    | none =>
      if g.required && !(evalGate S parseTs c patient g).passed then
        match Outcome.ofString? (resolveFailOutcome g c) with
        | some oc => .ok ⟨eid, oc, none, trace ++ [evalGate S parseTs c patient g], []⟩
        | none => .error "ValueError: invalid outcome token"
      else gateLoop S parseTs c patient eid rest (trace ++ [evalGate S parseTs c patient g])

/-- The exclusion loop of `evaluate_event` (lines 251-258): only entries with
`gate_type == "exclude_if_any"` are evaluated. -/
def exclLoop (S : String → String → Bool) (c : Contract) (patient : PatientFacts) :
    List Excl → Option HardStop
  | [] => none
  | ex :: rest =>
    if ex.gateType ≠ "exclude_if_any" then exclLoop S c patient rest
    else
      match evalExcludeIfAny S c patient ex with
      | some hs => some hs
      | none => exclLoop S c patient rest

/-- `evaluate_event`. -/
def evaluateEvent (S : String → String → Bool) (parseTs : String → Option (Rat × Bool))
    (rules : EventRules) (c : Contract) (patient : PatientFacts) :
    Except String EventResult :=
  match exclLoop S c patient rules.exclusions with
  | some hs => .ok ⟨rules.eventId, .EXCLUDED, some hs, [], []⟩
  | none => gateLoop S parseTs c patient rules.eventId rules.gates []

end NTDS

/-! ## Character-level helpers shared by the protocol-engine embedding -/

/-- ASCII lowercasing of a character list (`str.lower()` on the texts in
scope, and the `re.IGNORECASE` flag on the cue regexes). -/
def lowerL (l : List Char) : List Char := l.map Char.toLower

/-- Python `\s` / `str.strip()` whitespace. -/
def pyIsSpace (c : Char) : Bool :=
  c = ' ' || c = '\t' || c = '\n' || c = '\r' || c = '\x0b' || c = '\x0c'

/-- `str.strip()`. -/
def pyStrip (l : List Char) : List Char :=
  ((l.dropWhile pyIsSpace).reverse.dropWhile pyIsSpace).reverse

/-- Does `pat` occur at the head of `l`? -/
def startsList : List Char → List Char → Bool
  | [], _ => true
  | _ :: _, [] => false
  | p :: ps, c :: cs => p == c && startsList ps cs

/-- Python `needle in hay` (substring containment). -/
def hasSub (needle : List Char) : List Char → Bool
  | [] => startsList needle []
  | hay@(_ :: rest) => startsList needle hay || hasSub needle rest

/-- `str.rfind`: index of the last occurrence, `-1` when absent. -/
def rfindAux (needle : List Char) : List Char → Nat → Int → Int
  | [], _, best => best
  | hay@(_ :: rest), i, best =>
    rfindAux needle rest (i + 1) (if startsList needle hay then (i : Int) else best)

def rfindSub (needle hay : List Char) : Int := rfindAux needle hay 0 (-1)

/-- `str.find`: index of the first occurrence, `-1` when absent. -/
def ffindAux (needle : List Char) : List Char → Nat → Int
  | [], _ => -1
  | hay@(_ :: rest), i => if startsList needle hay then (i : Int) else ffindAux needle rest (i + 1)

def ffindSub (needle hay : List Char) : Int := ffindAux needle hay 0

/-- `str.split(sep)` for a one-character separator (the result list is never
empty: `"".split(sep)` is `[""]`). -/
def splitOnChar (sep : Char) : List Char → List (List Char)
  | [] => [[]]
  | c :: rest =>
    match splitOnChar sep rest with
    | [] => [[]]
    | h :: t => if c = sep then [] :: h :: t else (c :: h) :: t

/-- `sep.join(parts)`. -/
def joinWith (sep : Char) : List (List Char) → List Char
  | [] => []
  | [x] => x
  | x :: y :: t => x ++ sep :: joinWith sep (y :: t)

namespace Proto

/-! ## Negation classifier (`_is_negated`) -/

/-- Regex `\w` (ASCII view, as the clinical text in scope is ASCII). -/
def isWordChar (c : Char) : Bool := c.isAlphanum || c = '_'

/-- Match a literal word at the head of the text, returning the remainder. -/
def matchWordChars : List Char → List Char → Option (List Char)
  | [], rest => some rest
  | _ :: _, [] => none
  | p :: ps, c :: cs => if p == c then matchWordChars ps cs else none

/-- Regex `\s+`: at least one whitespace character, consumed greedily. -/
def spaces1 : List Char → Option (List Char)
  | [] => none
  | c :: rest => if pyIsSpace c then some (rest.dropWhile pyIsSpace) else none

/-- Trailing `\b`: the next character (if any) is not a word character. -/
def endBoundary : List Char → Bool
  | [] => true
  | c :: _ => !isWordChar c

/-- A negation cue `\b w1 \s+ w2 ... \b` where each `wi` is an alternation
group of literal words; match it at the head of the text (the leading `\b`
is the caller's responsibility). -/
def matchGroups : List (List String) → List Char → Bool
  | [], txt => endBoundary txt
  | g :: gs, txt =>
    g.any (fun w =>
      match matchWordChars w.data txt with
      | none => false
      | some rest =>
        match gs with
        | [] => endBoundary rest
        | _ :: _ =>
          match spaces1 rest with
          | some rest2 => matchGroups gs rest2
          | none => false)

/-- `re.search` of a cue list over the text: some position with a left word
boundary starts a cue match. -/
def cueSearchGo (cues : List (List (List String))) : Option Char → List Char → Bool
  | _, [] => false
  | prev, txt@(c :: rest) =>
    ((match prev with | none => true | some pc => !isWordChar pc)
       && cues.any (fun cue => matchGroups cue txt))
    || cueSearchGo cues (some c) rest

def cueSearch (cues : List (List (List String))) (txt : List Char) : Bool :=
  cueSearchGo cues none (lowerL txt)

/-- `_PRE_NEGATION_CUES`, as word-alternation sequences. -/
def preNegationCues : List (List (List String)) :=
  [ [["no"], ["evidence"], ["of"]],
    [["no"], ["sign", "signs"], ["of"]],
    [["no"], ["acute"]],
    [["no"], ["new", "significant", "obvious", "gross"]],
    [["negative"], ["for"]],
    [["rule", "ruled", "rules"], ["out"]],
    [["failed"], ["to"], ["reveal", "show", "demonstrate"]],
    [["unremarkable"], ["for"]],
    [["free"], ["of"]],
    [["without"]],
    [["denies"]],
    [["no"]],
    [["not"]],
    [["absent"]],
    [["never"]] ]

/-- `_POST_NEGATION_CUES`. -/
def postNegationCues : List (List (List String)) :=
  [ [["not"], ["seen", "found", "identified", "demonstrated", "present",
               "confirmed", "detected", "noted"]],
    [["absent"]],
    [["unlikely"]],
    [["not"], ["elevated", "positive"]] ]

/-- `_SCOPE_BREAKER_CHARS`. -/
def isBreakChar (c : Char) : Bool :=
  c = '.' || c = ';' || c = '\n' || c = '!' || c = '?'

/-- `_SCOPE_BREAKER_PHRASES`. -/
def scopeBreakerPhrases : List String := [" but ", " however ", " although ", " except "]

/-- Index of the last scope-breaking character, `-1` when there is none
(value-equal to the source's `enumerate` loop). -/
def lastBreakCharIdxInt : List Char → Int
  | [] => -1
  | c :: rest =>
    let r := lastBreakCharIdxInt rest
    if 0 ≤ r then r + 1 else if isBreakChar c then 0 else -1

/-- One phrase update of `last_break` in the pre-window. -/
def phraseStep (pt : List Char) (lb : Int) (phrase : String) : Int :=
  if 0 ≤ rfindSub phrase.data (lowerL pt) ∧ lb < rfindSub phrase.data (lowerL pt) then
    rfindSub phrase.data (lowerL pt) + (phrase.length : Int) - 1
  else lb

def lastScopeBreak (pt : List Char) : Int :=
  scopeBreakerPhrases.foldl (phraseStep pt) (lastBreakCharIdxInt pt)

/-- `text[max(0, match_start - 30):match_start]`. -/
def preWindow (text : List Char) (s : Nat) : List Char := (text.take s).drop (s - 30)

/-- The pre-window truncated after its last scope breaker. -/
def trimmedPre (text : List Char) (s : Nat) : List Char :=
  if 0 ≤ lastScopeBreak (preWindow text s) then
    (preWindow text s).drop (lastScopeBreak (preWindow text s) + 1).toNat
  else preWindow text s

/-- `text[match_end:match_end + 20]`. -/
def postWindow (text : List Char) (e : Nat) : List Char := (text.drop e).take 20

/-- Index of the first scope-breaking character, `length` when none. -/
def firstBreakCharNat : List Char → Nat
  | [] => 0
  | c :: rest => if isBreakChar c then 0 else 1 + firstBreakCharNat rest

/-- One phrase update of `first_break` in the post-window. -/
def phraseStepPost (pt : List Char) (fb : Nat) (phrase : String) : Nat :=
  let pos := ffindSub phrase.data (lowerL pt)
  if 0 ≤ pos ∧ pos < (fb : Int) then pos.toNat else fb

def postFirstBreak (pt : List Char) : Nat :=
  scopeBreakerPhrases.foldl (phraseStepPost pt) (firstBreakCharNat pt)

/-- The post-window truncated at its first scope breaker. -/
def trimmedPost (text : List Char) (e : Nat) : List Char :=
  (postWindow text e).take (postFirstBreak (postWindow text e))

def preNegFound (l : List Char) : Bool :=
  if (pyStrip l).isEmpty then false else cueSearch preNegationCues l

def postNegFound (l : List Char) : Bool :=
  if (pyStrip l).isEmpty then false else cueSearch postNegationCues l

/-- `_is_negated`. -/
def isNegated (text : List Char) (s e : Nat) : Bool :=
  preNegFound (trimmedPre text s) || postNegFound (trimmedPost text e)

/-! ## Historical-context classifier (`_is_match_in_historical_context`) -/

def sectionMarkers : List String :=
  ["past medical history", "past surgical history", "pmh:", "psh:",
   "surgical history:", "medical history:", "family history",
   "family hx", "fhx:", "social history",
   "previous surgeries", "prior procedures", "prior surgeries",
   "surgical hx", "medical hx"]

def currentSections : List String :=
  ["\nassessment", "\nplan", "\nphysical exam", "\npe:",
   "\nreview of systems", "\nros:", "\nhpi:", "\nsubjective",
   "\nobjective", "\nimaging", "\nlabs", "\nradiograph",
   "\nimpression", "\nsecondary survey", "\nprimary survey",
   "\nchief complaint", "\nalert history",
   "\nmedications:", "\nallergies:"]

def inlineMarkers : List String :=
  ["history of", "hx of", "previous", "prior ",
   "remote history", "old fracture", "healed fracture",
   "status post", "s/p ",
   "prior surgery", "prior repair", "prior fixation",
   "prior replacement", "prior procedure"]

def timeUnitsWords : List String := ["months", "month", "years", "year", "weeks", "week"]

/-- `\d+\s+(?:months?|years?|weeks?)\s+ago` anchored at the head of the text
(no `\b` anchors appear in the source pattern). -/
def timeAgoAt (txt : List Char) : Bool :=
  let ds := txt.takeWhile Char.isDigit
  if ds.isEmpty then false
  else
    match spaces1 (txt.drop ds.length) with
    | none => false
    | some r1 =>
      timeUnitsWords.any (fun u =>
        match matchWordChars u.data r1 with
        | none => false
        | some r2 =>
          match spaces1 r2 with
          | some r3 => startsList "ago".data r3
          | none => false)

def timeAgoSearch : List Char → Bool
  | [] => false
  | txt@(_ :: rest) => timeAgoAt txt || timeAgoSearch rest

def pastVerbs : List String := ["underwent", "had", "received", "completed"]
def procedureWords : List String := ["surgery", "repair", "fixation", "replacement", "procedure"]

/-- `\b`-delimited literal word at the head of the text, given the previous
character. -/
def boundedAt (w : List Char) (prev : Option Char) (txt : List Char) : Option (List Char) :=
  if (match prev with | none => true | some pc => !isWordChar pc) then
    match matchWordChars w txt with
    | some rest => if endBoundary rest then some rest else none
    | none => none
  else none

/-- Scan for a `\b`-delimited procedure word reachable through `.*`
(which cannot cross a newline). -/
def nounScan (prev : Option Char) : List Char → Bool
  | [] => false
  | txt@(c :: rest) =>
    procedureWords.any (fun n => (boundedAt n.data prev txt).isSome)
    || (if c = '\n' then false else nounScan (some c) rest)

/-- Regex `\b(?:underwent|had|received|completed)\b.*\b(?:surgery|repair|fixation|replacement|procedure)\b`. -/
def pastTenseGo (prev : Option Char) : List Char → Bool
  | [] => false
  | txt@(c :: rest) =>
    pastVerbs.any (fun v =>
      match boundedAt v.data prev txt with
      | some restAfter => nounScan (some (v.data.getLastD 'x')) restAfter
      | none => false)
    || pastTenseGo (some c) rest

def pastTenseSearch (txt : List Char) : Bool := pastTenseGo none txt

/-- `_is_match_in_historical_context` (default 400-char window). -/
def isMatchInHistoricalContext (text : List Char) (s e : Nat) : Bool :=
  let ctxBefore := lowerL ((text.take s).drop (s - 400))
  let sectionHit := sectionMarkers.any (fun m =>
    hasSub m.data ctxBefore &&
    !(currentSections.any (fun cs =>
        hasSub cs.data (ctxBefore.drop (rfindSub m.data ctxBefore).toNat))))
  let closeBefore := lowerL ((text.take s).drop (s - 100))
  let inlineHit := inlineMarkers.any (fun m => hasSub m.data closeBefore)
  let closeAfter := lowerL ((text.drop e).take 100)
  let closeContext := closeBefore ++ closeAfter
  sectionHit || inlineHit || timeAgoSearch closeContext || pastTenseSearch closeContext

end Proto

namespace Proto

/-! ## Protocol data model and evidence matcher -/

/-- A `ProtocolEvidence` block; the protocol `SourceType` enum also has
`name = value` for all members, so both views are the one string. -/
structure PEvidence where
  sourceType : String
  timestamp : Option String
  text : List Char
deriving DecidableEq

/-- `ProtocolFacts`: the `facts` dict split into the `action_patterns` map
and the scalar string facts. -/
structure PFacts where
  actionPatterns : List (String × List String)
  scalars : List (String × String)
  evidence : List PEvidence

/-- The leaf subsystems of the protocol engine, as explicit parameters:
`finditer p txt` is the span list of `re.finditer` for one compiled pattern,
`parseDT` is `_parse_datetime` (seconds, naive — none of the `_TS_FORMATS`
entries attaches a timezone here), `parseFloat` is Python `float(...)`, and
`extract` is `_extract_numeric_value` (parameter name, text). -/
structure Env where
  finditer : String → List Char → List (Nat × Nat)
  parseDT : String → Option Rat
  parseFloat : String → Option Rat
  extract : String → List Char → Option Rat

/-- `_patterns_for_key` over `facts["action_patterns"]`. -/
def pPatternsForKey (p : PFacts) (key : String) : List String :=
  match p.actionPatterns.lookup key with
  | some pats => pats
  | none => []

/-- Python truthiness of the `timestamp` field (`None` and `""` are falsy). -/
def tsTruthy (e : PEvidence) : Option String :=
  match e.timestamp with
  | some s => if s = "" then none else some s
  | none => none

/-- `_parse_datetime(e.timestamp) if e.timestamp else None`. -/
def tsParse (env : Env) (e : PEvidence) : Option Rat := (tsTruthy e).bind env.parseDT

/-- `facts.get("arrival_time", "")` followed by truthiness and parsing. -/
def arrivalOf (env : Env) (p : PFacts) : Option Rat :=
  match p.scalars.lookup "arrival_time" with
  | some s => if s = "" then none else env.parseDT s
  | none => none

/-- The admission-window skip of `match_evidence`: drop a block whose parsed
timestamp precedes arrival by more than `admission_window_hours` hours; a
missing, falsy, or unparseable timestamp never triggers the skip. -/
def admissionSkips (env : Env) (arrivalDt : Option Rat) (windowHours : Int)
    (e : PEvidence) : Bool :=
  match arrivalDt, tsTruthy e with
  | some a, some ts =>
    if 0 < windowHours then
      match env.parseDT ts with
      | some t => decide ((windowHours : Rat) * 3600 < a - t)
      | none => false
    else false
  | _, _ => false

/-- One pattern occurrence survives the negation / historical filters:
negation is tested only when `negation_aware`, the historical filter only
when `skip_historical`. -/
def occQualifies (nA sH : Bool) (txt : List Char) (sp : Nat × Nat) : Bool :=
  (!nA || !isNegated txt sp.1 sp.2) && (!sH || !isMatchInHistoricalContext txt sp.1 sp.2)

/-- A block is accepted when any pattern has any qualifying occurrence. -/
def blockMatches (env : Env) (pats : List String) (nA sH : Bool) (txt : List Char) : Bool :=
  pats.any (fun p => (env.finditer p txt).any (fun sp => occQualifies nA sH txt sp))

/-- The per-block predicate of the `match_evidence` scan. -/
def acceptBlock (env : Env) (pats : List String) (allowed : Option (List String))
    (arrivalDt : Option Rat) (windowHours : Int) (nA sH : Bool) (e : PEvidence) : Bool :=
  sourceOk allowed e.sourceType && !admissionSkips env arrivalDt windowHours e
    && blockMatches env pats nA sH e.text

/-- `match_evidence` of the protocol engine. -/
def pMatchEvidence (env : Env) (patient : PFacts) (key : String)
    (allowed : Option (List String)) (maxHits : Int) (nA sH : Bool)
    (windowHours : Int) : List PEvidence :=
  let pats := pPatternsForKey patient key
  if pats.isEmpty then []
  else
    let arrivalDt := if 0 < windowHours then arrivalOf env patient else none
    scanEvidence (acceptBlock env pats allowed arrivalDt windowHours nA sH)
      maxHits patient.evidence

structure MatchDetail where
  patternKey : String
  matchedText : List Char
  context : List Char
deriving DecidableEq

/-- First occurrence of one pattern that survives the filters. -/
def firstQualOcc (env : Env) (nA sH : Bool) (p : String) (txt : List Char) :
    Option (Nat × Nat) :=
  (env.finditer p txt).find? (fun sp => occQualifies nA sH txt sp)

/-- The pattern loop of `match_evidence_with_details` for one block, with the
running `len(hits)` / `len(details)` counters of the source: the guard
`len(hits) > len(details) - 1` is evaluated after each non-matching pattern
exactly as written. -/
def wdPatLoop (env : Env) (nA sH : Bool) (txt : List Char) (hLen dLen : Int) :
    List String → Option (Nat × Nat)
  | [] => none
  | p :: ps =>
    match firstQualOcc env nA sH p txt with
    | some sp => some sp
    | none =>
      if dLen - 1 < hLen then none else wdPatLoop env nA sH txt hLen dLen ps

/-- `MatchDetail(pattern_key, m.group(0), txt[s-100:e+100].strip())`. -/
def mkDetail (key : String) (txt : List Char) (sp : Nat × Nat) : MatchDetail :=
  ⟨key, (txt.take sp.2).drop sp.1, pyStrip ((txt.take (sp.2 + 100)).drop (sp.1 - 100))⟩

/-- The block loop of `match_evidence_with_details`; the `len(hits) >=
max_hits` break runs after every block that passed the source and window
filters. -/
def wdGo (env : Env) (key : String) (pats : List String) (allowed : Option (List String))
    (arrivalDt : Option Rat) (windowHours maxHits : Int) (nA sH : Bool) :
    List PEvidence → List PEvidence → List MatchDetail → (List PEvidence × List MatchDetail)
  | [], hits, dets => (hits, dets)
  | e :: rest, hits, dets =>
    if !(sourceOk allowed e.sourceType) then
      wdGo env key pats allowed arrivalDt windowHours maxHits nA sH rest hits dets
    else if admissionSkips env arrivalDt windowHours e then
      wdGo env key pats allowed arrivalDt windowHours maxHits nA sH rest hits dets
    else
      let hd :=
        match wdPatLoop env nA sH e.text (hits.length : Int) (dets.length : Int) pats with
        | some sp => (hits ++ [e], dets ++ [mkDetail key e.text sp])
        | none => (hits, dets)
      if maxHits ≤ (hd.1.length : Int) then hd
      else wdGo env key pats allowed arrivalDt windowHours maxHits nA sH rest hd.1 hd.2

/-- `match_evidence_with_details`. -/
def pMatchEvidenceWithDetails (env : Env) (patient : PFacts) (key : String)
    (allowed : Option (List String)) (maxHits : Int) (nA sH : Bool)
    (windowHours : Int) : List PEvidence × List MatchDetail :=
  let pats := pPatternsForKey patient key
  if pats.isEmpty then ([], [])
  else
    let arrivalDt := if 0 < windowHours then arrivalOf env patient else none
    wdGo env key pats allowed arrivalDt windowHours maxHits nA sH patient.evidence [] []

/-! ## Condition parsing and evaluators -/

def pyStripS (s : String) : String := String.mk (pyStrip s.data)

def pyTake50 (s : String) : String := String.mk (s.data.take 50)

/-- `condition_lower in (e.text or "").lower()`. -/
def containsCI (needle : String) (hay : List Char) : Bool :=
  hasSub (lowerL needle.data) (lowerL hay)

/-- `_parse_pattern_with_source`: split on the first `@`. -/
def parsePatternWithSource (s : String) : String × Option (List String) :=
  match splitOnChar '@' s.data with
  | p0 :: p1 :: rest =>
    (String.mk (pyStrip p0), some [String.mk (pyStrip (joinWith '@' (p1 :: rest)))])
  | _ => (s, none)

/-- `_is_pattern_key`: the (source-stripped) key exists in `action_patterns`. -/
def isPatternKey (patient : PFacts) (key : String) : Bool :=
  (patient.actionPatterns.lookup (parsePatternWithSource key).1).isSome

def validOps : List String := ["<", "<=", ">", ">=", "==", "!="]

/-- `_parse_numeric_threshold`: `parameter:operator:threshold` with a valid
operator and a float threshold. -/
def parseNumericThreshold (parseFloat : String → Option Rat) (cond : String) :
    Option (String × String × Rat) :=
  match splitOnChar ':' cond.data with
  | [p1, p2, p3] =>
    if !validOps.contains (String.mk (pyStrip p2)) then none
    else
      match parseFloat (String.mk (pyStrip p3)) with
      | some thr => some (String.mk (pyStrip p1), String.mk (pyStrip p2), thr)
      | none => none
  | _ => none

/-- `_compare_numeric`. -/
def compareNumeric (v : Rat) (op : String) (thr : Rat) : Bool :=
  if op = "<" then decide (v < thr)
  else if op = "<=" then decide (v ≤ thr)
  else if op = ">" then decide (thr < v)
  else if op = ">=" then decide (thr ≤ v)
  else if op = "==" then decide (v = thr)
  else if op = "!=" then decide (v ≠ thr)
  else false

/-- The evidence loop of `_evaluate_numeric_threshold`, carrying the `hits`,
`passed` and `value_found` accumulators. -/
def numThGo (env : Env) (param op : String) (thr : Rat) (allowed : Option (List String))
    (maxHits : Int) : List PEvidence → List PEvidence → Bool → Bool →
    (Bool × List PEvidence × Bool)
  | [], hits, passed, vf => (passed, hits, vf)
  | e :: rest, hits, passed, vf =>
    if !(sourceOk allowed e.sourceType) then
      numThGo env param op thr allowed maxHits rest hits passed vf
    else
      match env.extract param e.text with
      | none => numThGo env param op thr allowed maxHits rest hits passed vf
      | some v =>
        if compareNumeric v op thr then
          let hits' := hits ++ [e]
          if maxHits ≤ (hits'.length : Int) then (true, hits', true)
          else numThGo env param op thr allowed maxHits rest hits' true true
        else numThGo env param op thr allowed maxHits rest hits passed true

/-- `_evaluate_numeric_threshold`, returning `(passed, hits, value_found)`. -/
def evalNumericThreshold (env : Env) (patient : PFacts) (param op : String) (thr : Rat)
    (allowed : Option (List String)) (maxHits : Int) : Bool × List PEvidence × Bool :=
  numThGo env param op thr allowed maxHits patient.evidence [] false false

structure Temporal where
  value : Rat
  unit : String
  patternKey : String
deriving DecidableEq

/-- `_parse_temporal_condition`: `temporal:within:N:unit:pattern_key`
(the `split(":", 4)` keeps any later colons inside the pattern key). -/
def parseTemporalCondition (parseFloat : String → Option Rat) (cond : String) :
    Option Temporal :=
  if !startsList "temporal:".data cond.data then none
  else
    match splitOnChar ':' cond.data with
    | _ :: ty :: v :: u :: r1 :: rs =>
      if ty ≠ "within".data then none
      else if !(u = "minutes".data || u = "hours".data) then none
      else
        match parseFloat (String.mk v) with
        | some value =>
          some ⟨value, String.mk u, String.mk (pyStrip (joinWith ':' (r1 :: rs)))⟩
        | none => none
    | _ => none

/-- `timedelta(hours=v)` / `timedelta(minutes=v)` in seconds. -/
def maxDeltaSecs (tc : Temporal) : Rat :=
  if tc.unit = "hours" then tc.value * 3600 else tc.value * 60

/-- `timedelta(0) <= e_dt - arrival <= max_delta` for one block with a
parseable timestamp. -/
def withinPred (env : Env) (a δ : Rat) (e : PEvidence) : Bool :=
  match tsParse env e with
  | some t => decide (a ≤ t ∧ t ≤ a + δ)
  | none => false

/-- `_evaluate_temporal_condition`, returning `(passed, within_hits)`.  The
inner `match_evidence` call uses the matcher defaults
(`negation_aware=True, skip_historical=True, admission_window_hours=24`). -/
def evalTemporalCondition (env : Env) (patient : PFacts) (tc : Temporal)
    (allowed : Option (List String)) (maxHits : Int) : Bool × List PEvidence :=
  match arrivalOf env patient with
  | none => (false, [])
  | some a =>
    let hits := pMatchEvidence env patient tc.patternKey allowed maxHits true true 24
    if hits.isEmpty then (false, [])
    else
      let within := hits.filter (withinPred env a (maxDeltaSecs tc))
      (!within.isEmpty, within)

/-! ## Requirement evaluators -/

/-- A requirement record as the evaluators read it. -/
structure Req where
  id : String
  triggerConditions : List String := []
  acceptableEvidence : List String := []

structure PContract where
  maxItemsPerRequirement : Int := 8

structure PStepResult where
  requirementId : String
  requirementType : String
  passed : Bool
  reason : String
  evidence : List PEvidence
  missingData : List String
  matchDetails : List MatchDetail := []
deriving DecidableEq

/-- `acceptable_evidence if acceptable_evidence else None`. -/
def acceptAllowed (req : Req) : Option (List String) :=
  if req.acceptableEvidence.isEmpty then none else some req.acceptableEvidence

/-- The keyword-fallback source filter
(`acceptable_evidence and e.source_type.value not in acceptable_evidence`). -/
def acceptSourceOk (req : Req) (e : PEvidence) : Bool :=
  req.acceptableEvidence.isEmpty || req.acceptableEvidence.contains e.sourceType

/-- Round half to even, the rounding of `"%.0f"` string formatting. -/
def roundHalfEven (q : Rat) : Int :=
  let fl := q.floor
  let r := q - fl
  if r < 1/2 then fl else if 1/2 < r then fl + 1 else if fl % 2 = 0 then fl else fl + 1

/-- `f"{threshold:.0f}"`. -/
def fmtF0 (q : Rat) : String :=
  let n := roundHalfEven q
  if n = 0 ∧ q < 0 then "-0" else toString n

def thresholdFailReason (param op : String) (thr : Rat) : String :=
  "NOT_TRIGGERED: " ++ param ++ " does not meet threshold (" ++ op ++ " " ++ fmtF0 thr ++ ")"

/-- One iteration of the trigger-condition loop: either an early `return`
out of `eval_trigger_criteria`, or the loop continues with the `found` flag
and the evidence / match-detail extensions of this condition. -/
inductive TrigStep where
  | earlyReturn (r : PStepResult)
  | advance (found : Bool) (newHits : List PEvidence) (newDets : List MatchDetail)

/-- The body of the trigger-condition loop (numeric threshold, then pattern
key, then keyword fallback). -/
def trigCondEval (env : Env) (patient : PFacts) (req : Req) (maxItems : Int)
    (condStr : String) : TrigStep :=
  match parseNumericThreshold env.parseFloat condStr with
  | some (param, op, thr) =>
    let r := evalNumericThreshold env patient param op thr (acceptAllowed req) maxItems
    if r.1 then .advance true r.2.1 []
    else if r.2.2 then
      .earlyReturn ⟨req.id, "MANDATORY", false, thresholdFailReason param op thr, [], [], []⟩
    else .advance false [] []
  | none =>
    if isPatternKey patient condStr then
      let ps := parsePatternWithSource condStr
      let sources := match ps.2 with | some l => some l | none => acceptAllowed req
      let pr := pMatchEvidenceWithDetails env patient ps.1 sources maxItems true true 24
      if !pr.1.isEmpty then .advance true pr.1 pr.2 else .advance false [] []
    else
      -- Keyword fallback.  In the source, `found = True` and `break` sit at
      -- loop-body level (outside the substring test), so the condition counts
      -- as found as soon as any block passing the source filter exists; a hit
      -- is appended only when the substring matches that first block.
      match patient.evidence.find? (acceptSourceOk req) with
      | some e => .advance true (if containsCI condStr e.text then [e] else []) []
      | none => .advance false [] []

def indetTriggerReason (n : Nat) : String :=
  "INDETERMINATE: Missing trigger data (" ++ toString n ++ " conditions not documented)"

/-- The post-loop returns of `eval_trigger_criteria`. -/
def trigFinal (req : Req) (maxItems : Int) (hits : List PEvidence)
    (dets : List MatchDetail) (missing : List String) : PStepResult :=
  if !missing.isEmpty then
    ⟨req.id, "MANDATORY", false, indetTriggerReason missing.length,
     pySlice maxItems hits, missing, dets⟩
  else if hits.isEmpty then
    ⟨req.id, "MANDATORY", false, "NOT_TRIGGERED: Trigger criteria not met", [], [], []⟩
  else
    ⟨req.id, "MANDATORY", true, "Trigger criteria satisfied",
     pySlice maxItems hits, [], dets⟩

/-- The trigger-condition loop with its index (condition 0 is the primary
trigger: its failure returns NOT_TRIGGERED immediately). -/
def trigLoop (env : Env) (patient : PFacts) (req : Req) (maxItems : Int) :
    List String → Nat → List PEvidence → List MatchDetail → List String → PStepResult
  | [], _, hits, dets, missing => trigFinal req maxItems hits dets missing
  | cond :: rest, i, hits, dets, missing =>
    let condStr := pyStripS cond
    match trigCondEval env patient req maxItems condStr with
    | .earlyReturn r => r
    | .advance found nh nd =>
      if found then
        trigLoop env patient req maxItems rest (i + 1) (hits ++ nh) (dets ++ nd) missing
      else if i = 0 then
        ⟨req.id, "MANDATORY", false, "NOT_TRIGGERED: Primary trigger criteria not met",
         [], [pyTake50 condStr], []⟩
      else
        trigLoop env patient req maxItems rest (i + 1) (hits ++ nh) (dets ++ nd)
          (missing ++ [pyTake50 condStr])

/-- `eval_trigger_criteria`. -/
def evalTriggerCriteria (env : Env) (patient : PFacts) (req : Req) (c : PContract) :
    PStepResult :=
  trigLoop env patient req c.maxItemsPerRequirement req.triggerConditions 0 [] [] []

/-- The body of the required-data-element loop: pattern key (negation-blind)
first, then correctly-indented keyword fallback (the substring must match
before the element counts as found). -/
def rdeCondEval (env : Env) (patient : PFacts) (req : Req) (maxItems : Int)
    (elemStr : String) : Bool × List PEvidence × List MatchDetail :=
  if isPatternKey patient elemStr then
    let ps := parsePatternWithSource elemStr
    let sources := match ps.2 with | some l => some l | none => acceptAllowed req
    let pr := pMatchEvidenceWithDetails env patient ps.1 sources maxItems false true 24
    if !pr.1.isEmpty then (true, pr.1, pr.2) else (false, [], [])
  else
    match patient.evidence.find? (fun e => acceptSourceOk req e && containsCI elemStr e.text) with
    | some e => (true, [e], [])
    | none => (false, [], [])

def indetDataReason (n : Nat) : String :=
  "INDETERMINATE: Missing required data elements (" ++ toString n ++ " elements not documented)"

/-- The element loop of `eval_required_data_elements`. -/
def rdeLoop (env : Env) (patient : PFacts) (req : Req) (maxItems : Int) :
    List String → List PEvidence → List MatchDetail → List String → PStepResult
  | [], hits, dets, missing =>
    if !missing.isEmpty then
      ⟨req.id, "MANDATORY", false, indetDataReason missing.length,
       pySlice maxItems hits, missing, dets⟩
    else
      ⟨req.id, "MANDATORY", true, "All required data elements present",
       pySlice maxItems hits, [], dets⟩
  | elem :: rest, hits, dets, missing =>
    let elemStr := pyStripS elem
    let r := rdeCondEval env patient req maxItems elemStr
    if r.1 then
      rdeLoop env patient req maxItems rest (hits ++ r.2.1) (dets ++ r.2.2) missing
    else
      rdeLoop env patient req maxItems rest (hits ++ r.2.1) (dets ++ r.2.2)
        (missing ++ [pyTake50 elemStr])

/-- `eval_required_data_elements`. -/
def evalRequiredDataElements (env : Env) (patient : PFacts) (req : Req) (c : PContract) :
    PStepResult :=
  rdeLoop env patient req c.maxItemsPerRequirement req.triggerConditions [] [] []

end Proto

/-! ## Generic lemmas -/

theorem pySlice_length_le {α} (n : Int) (l : List α) (h : 0 ≤ n) :
    ((pySlice n l).length : Int) ≤ n := by
  unfold pySlice
  rw [if_pos h, List.length_take]
  have h1 : min n.toNat l.length ≤ n.toNat := Nat.min_le_left _ _
  have h2 : (n.toNat : Int) = n := Int.toNat_of_nonneg h
  omega

theorem pySlice_ne_nil {α} (n : Int) (l : List α) (hn : 1 ≤ n) (hl : l ≠ []) :
    pySlice n l ≠ [] := by
  unfold pySlice
  rw [if_pos (le_trans (by norm_num) hn)]
  intro hcontra
  have hlen := congrArg List.length hcontra
  rw [List.length_take] at hlen
  simp only [List.length_nil] at hlen
  rcases Nat.min_eq_zero_iff.mp hlen with h | h
  · have : (1 : Int) ≤ (n.toNat : Int) := by
      rw [Int.toNat_of_nonneg (le_trans (by norm_num) hn)]; exact hn
    omega
  · exact hl (List.eq_nil_of_length_eq_zero h)

namespace NTDS

/-! ## C1: a failing required gate halts evaluation -/

theorem passResolve_of_not_passed (g : Gate) (gr : GateResult) (c : Contract)
    (h : gr.passed = false) : passResolve g gr c = none := by
  unfold passResolve
  rw [h]
  simp

theorem gateLoop_cons_continue (S : String → String → Bool)
    (pts : String → Option (Rat × Bool)) (c : Contract) (patient : PatientFacts)
    (eid : Int) (g : Gate) (rest : List Gate) (trace : List GateResult)
    (h : gateContinues S pts c patient g = true) :
    gateLoop S pts c patient eid (g :: rest) trace
      = gateLoop S pts c patient eid rest (trace ++ [evalGate S pts c patient g]) := by
  unfold gateContinues at h
  simp only [Bool.and_eq_true, Option.isNone_iff_eq_none] at h
  obtain ⟨h1, h2⟩ := h
  simp only [Bool.not_eq_true'] at h2
  simp only [gateLoop, h1]
  rw [if_neg (by simp [h2])]

theorem gateLoop_append (S : String → String → Bool)
    (pts : String → Option (Rat × Bool)) (c : Contract) (patient : PatientFacts)
    (eid : Int) (pre rest : List Gate) (trace : List GateResult)
    (h : ∀ g ∈ pre, gateContinues S pts c patient g = true) :
    gateLoop S pts c patient eid (pre ++ rest) trace
      = gateLoop S pts c patient eid rest (trace ++ pre.map (evalGate S pts c patient)) := by
  induction pre generalizing trace with
  | nil => simp
  | cons g pre ih =>
    rw [List.cons_append,
        gateLoop_cons_continue S pts c patient eid g (pre ++ rest) trace
          (h g (by simp)),
        ih _ (fun g' hg' => h g' (by simp [hg']))]
    simp [List.append_assoc]

/-- C1: in `evaluate_event`, when a gate with `required = true` (the default)
produces a failing `GateResult`, evaluation halts immediately: that
`GateResult` is the last entry of `gate_trace`, no later gate is evaluated or
appended, and the outcome is the gate's `fail_outcome` uppercased when that
token is in the contract's `outcomes.allowed`, otherwise the contract's
`outcomes.defaults.missing_required_data` token (`resolveFailOutcome`
embodies exactly that resolution). -/
theorem ntds_required_gate_failure_halts (S : String → String → Bool)
    (pts : String → Option (Rat × Bool)) (rules : EventRules) (c : Contract)
    (patient : PatientFacts) (pre post : List Gate) (g : Gate) (oc : Outcome)
    (hgates : rules.gates = pre ++ g :: post)
    (hexcl : exclLoop S c patient rules.exclusions = none)
    (hpre : ∀ g' ∈ pre, gateContinues S pts c patient g' = true)
    (hreq : g.required = true)
    (hfail : (evalGate S pts c patient g).passed = false)
    (hoc : Outcome.ofString? (resolveFailOutcome g c) = some oc) :
    evaluateEvent S pts rules c patient
      = .ok ⟨rules.eventId, oc, none,
             pre.map (evalGate S pts c patient) ++ [evalGate S pts c patient g], []⟩ ∧
    (pre.map (evalGate S pts c patient) ++ [evalGate S pts c patient g]).getLast?
      = some (evalGate S pts c patient g) ∧
    ∀ post', evaluateEvent S pts { rules with gates := pre ++ g :: post' } c patient
               = evaluateEvent S pts rules c patient := by
  have key : ∀ post' : List Gate,
      gateLoop S pts c patient rules.eventId (pre ++ g :: post') []
        = .ok ⟨rules.eventId, oc, none,
               pre.map (evalGate S pts c patient) ++ [evalGate S pts c patient g], []⟩ := by
    intro post'
    rw [gateLoop_append S pts c patient rules.eventId pre (g :: post') [] hpre]
    simp only [gateLoop, passResolve_of_not_passed g _ c hfail]
    rw [if_pos (by rw [hreq, hfail]; rfl), hoc]
    simp
  refine ⟨?_, List.getLast?_concat _, ?_⟩
  · unfold evaluateEvent
    rw [hexcl, hgates, key post]
  · intro post'
    unfold evaluateEvent
    rw [hexcl, hgates]
    simp only
    rw [key post, key post']

def c1S : String → String → Bool := fun _ _ => false

def c1Pts : String → Option (Rat × Bool) := fun _ => none

def c1Contract : Contract :=
  { maxItemsPerGate := 8,
    allowed := ["YES", "NO", "EXCLUDED", "UNABLE_TO_DETERMINE"],
    missingDefault := "UNABLE_TO_DETERMINE" }

def c1Gate : Gate := { gateType := "evidence_any", gateId := "g1", queryKeys := ["k"] }

def c1Post : Gate := { gateType := "evidence_any", gateId := "g2" }

def c1Rules : EventRules := { gates := [c1Gate, c1Post] }

def c1Patient : PatientFacts := { queryPatterns := [], scalars := [], evidence := [] }

theorem ntds_required_gate_failure_halts_witness :
    evaluateEvent c1S c1Pts c1Rules c1Contract c1Patient
      = .ok ⟨0, .UNABLE_TO_DETERMINE, none,
             [evalGate c1S c1Pts c1Contract c1Patient c1Gate], []⟩ :=
  (ntds_required_gate_failure_halts c1S c1Pts c1Rules c1Contract c1Patient
      [] [c1Post] c1Gate .UNABLE_TO_DETERMINE rfl rfl (by simp) rfl (by decide) (by decide)).1

end NTDS

theorem isEmpty_false_of_ne {α} (l : List α) (h : l ≠ []) : l.isEmpty = false := by
  cases l with
  | nil => exact absurd rfl h
  | cons a l => rfl

namespace NTDS

/-! ## C2: exclusion precedence -/

/-- The claim-level firing condition for one exclusion: some query key
matches an evidence block within the engine's 50-hit scan, and (when
`require_context_keys` is non-empty) that block's text also matches at least
one context key. -/
def exclFires (S : String → String → Bool) (patient : PatientFacts) (ex : Excl) : Prop :=
  ∃ qk ∈ ex.queryKeys, ∃ e ∈ matchEvidence S patient qk none 50,
    (ex.requireContextKeys = [] ∨
     ∃ ctx ∈ ex.requireContextKeys, lineMatchesAny S patient e.text ctx = true)

theorem exclGo_fires (S : String → String → Bool) (c : Contract)
    (patient : PatientFacts) (ex : Excl) (qks : List String)
    (h : ∃ qk ∈ qks, ∃ e ∈ matchEvidence S patient qk none 50,
           (ex.requireContextKeys = [] ∨
            ∃ ctx ∈ ex.requireContextKeys, lineMatchesAny S patient e.text ctx = true)) :
    (exclGo S c patient ex qks).isSome := by
  induction qks with
  | nil => simp at h
  | cons qk0 rest ih =>
    obtain ⟨qk, hqk, e, he, hctx⟩ := h
    by_cases hA : matchEvidence S patient qk0 none 50 = []
    · have hqkr : qk ∈ rest := by
        rcases List.mem_cons.mp hqk with rfl | hr
        · exfalso; rw [hA] at he; exact absurd he (List.not_mem_nil e)
        · exact hr
      have hrest := ih ⟨qk, hqkr, e, he, hctx⟩
      simp [exclGo, hA, hrest]
    · have hA' := isEmpty_false_of_ne _ hA
      by_cases hB : ex.requireContextKeys = []
      · simp [exclGo, hA', hB]
      · have hB' := isEmpty_false_of_ne _ hB
        by_cases hD : (matchEvidence S patient qk0 none 50).filter
            (fun e => ex.requireContextKeys.any
              (fun ctx => lineMatchesAny S patient e.text ctx)) = []
        · have hqkr : qk ∈ rest := by
            rcases List.mem_cons.mp hqk with rfl | hr
            · exfalso
              rcases hctx with hempty | ⟨ctx, hcm, hlm⟩
              · exact hB hempty
              · have hmemF : e ∈ (matchEvidence S patient qk none 50).filter
                    (fun e => ex.requireContextKeys.any
                      (fun ctx => lineMatchesAny S patient e.text ctx)) :=
                  List.mem_filter.mpr ⟨he, List.any_eq_true.mpr ⟨ctx, hcm, hlm⟩⟩
                rw [hD] at hmemF; exact absurd hmemF (List.not_mem_nil e)
            · exact hr
          have hrest := ih ⟨qk, hqkr, e, he, hctx⟩
          simp [exclGo, hA', hB', hD, hrest]
        · have hD' := isEmpty_false_of_ne _ hD
          simp [exclGo, hA', hB', hD']

theorem exclLoop_some (S : String → String → Bool) (c : Contract)
    (patient : PatientFacts) (exs : List Excl)
    (h : ∃ ex ∈ exs, ex.gateType = "exclude_if_any" ∧ exclFires S patient ex) :
    ∃ hs, exclLoop S c patient exs = some hs ∧
      ∃ ex ∈ exs, ex.gateType = "exclude_if_any" ∧
        evalExcludeIfAny S c patient ex = some hs := by
  induction exs with
  | nil => simp at h
  | cons ex0 rest ih =>
    obtain ⟨ex, hmem, hty, hfire⟩ := h
    simp only [exclLoop]
    by_cases h0 : ex0.gateType = "exclude_if_any"
    · rw [if_neg (by simp [h0])]
      cases hv : evalExcludeIfAny S c patient ex0 with
      | some hs =>
        exact ⟨hs, rfl, ex0, List.mem_cons_self ex0 rest, h0, hv⟩
      | none =>
        have hexRest : ex ∈ rest := by
          rcases List.mem_cons.mp hmem with rfl | hr
          · exfalso
            have := exclGo_fires S c patient ex ex.queryKeys hfire
            unfold evalExcludeIfAny at hv
            rw [hv] at this
            simp at this
          · exact hr
        obtain ⟨hs, hl, ex', hmem', hty', hv'⟩ := ih ⟨ex, hexRest, hty, hfire⟩
        exact ⟨hs, hl, ex', List.mem_cons_of_mem ex0 hmem', hty', hv'⟩
    · rw [if_pos (by simp [h0])]
      have hexRest : ex ∈ rest := by
        rcases List.mem_cons.mp hmem with rfl | hr
        · exact absurd hty h0
        · exact hr
      obtain ⟨hs, hl, ex', hmem', hty', hv'⟩ := ih ⟨ex, hexRest, hty, hfire⟩
      exact ⟨hs, hl, ex', List.mem_cons_of_mem ex0 hmem', hty', hv'⟩

/-- C2 (amended): in `evaluate_event`, all `exclude_if_any` exclusions are
evaluated before any gate; whenever some exclusion whose `gate_type` is
`"exclude_if_any"` has a query key matching an evidence block (re-filtered,
when `require_context_keys` is non-empty, by that same block's text matching
a context key), the result has outcome EXCLUDED, an empty `gate_trace`, and
a `HardStop` produced by `eval_exclude_if_any` for such an exclusion
(carrying its rule id, reason, and matching evidence) — regardless of the
gates.  The amendment restricts the claim to exclusions with gate_type
`exclude_if_any`: `evaluate_event` skips every other exclusion entry. -/
theorem ntds_exclusion_precedence (S : String → String → Bool)
    (pts : String → Option (Rat × Bool)) (rules : EventRules) (c : Contract)
    (patient : PatientFacts)
    (h : ∃ ex ∈ rules.exclusions, ex.gateType = "exclude_if_any" ∧ exclFires S patient ex) :
    ∃ hs, evaluateEvent S pts rules c patient
        = .ok ⟨rules.eventId, .EXCLUDED, some hs, [], []⟩ ∧
      ∃ ex ∈ rules.exclusions, ex.gateType = "exclude_if_any" ∧
        evalExcludeIfAny S c patient ex = some hs := by
  obtain ⟨hs, hl, hrest⟩ := exclLoop_some S c patient rules.exclusions h
  refine ⟨hs, ?_, hrest⟩
  unfold evaluateEvent
  rw [hl]

def c2S : String → String → Bool := fun p t => p = t

def c2Ev : Evidence := { sourceType := "ED_NOTE", timestamp := none, text := "needle" }

def c2Patient : PatientFacts :=
  { queryPatterns := [("k", ["needle"])], scalars := [], evidence := [c2Ev] }

def c2Excl : Excl := { gateType := "not_exclude_if_any", queryKeys := ["k"] }

def c2Rules : EventRules := { exclusions := [c2Excl], gates := [] }

/-- C2 counterexample: an exclusion whose query key matches an evidence block
(and that has no `require_context_keys`) does NOT force outcome EXCLUDED when
its `gate_type` is not `"exclude_if_any"` — `evaluate_event` skips it and
returns YES with no hard stop and an empty gate trace. -/
theorem ntds_exclusion_precedence_counterexample :
    c2Excl ∈ c2Rules.exclusions ∧
    "k" ∈ c2Excl.queryKeys ∧
    c2Ev ∈ matchEvidence c2S c2Patient "k" none 50 ∧
    c2Excl.requireContextKeys = [] ∧
    evaluateEvent c2S c1Pts c2Rules c1Contract c2Patient = .ok ⟨0, .YES, none, [], []⟩ :=
  ⟨by decide, by decide, by decide, rfl, rfl⟩

def c2ExclB : Excl :=
  { gateType := "exclude_if_any", ruleId := some "EX1", reason := some "excluded by rule",
    queryKeys := ["k"] }

def c2RulesB : EventRules := { exclusions := [c2ExclB], gates := [c1Gate] }

theorem ntds_exclusion_precedence_witness :
    ∃ hs, evaluateEvent c2S c1Pts c2RulesB c1Contract c2Patient
        = .ok ⟨0, .EXCLUDED, some hs, [], []⟩ ∧
      ∃ ex ∈ c2RulesB.exclusions, ex.gateType = "exclude_if_any" ∧
        evalExcludeIfAny c2S c1Contract c2Patient ex = some hs :=
  ntds_exclusion_precedence c2S c1Pts c2RulesB c1Contract c2Patient
    ⟨c2ExclB, by decide, rfl, "k", by decide, c2Ev, by decide, Or.inl rfl⟩

end NTDS

namespace NTDS

/-! ## C3: YES implies a passing required gate with evidence -/

theorem ofString_eq_yes {s : String} (h : Outcome.ofString? s = some .YES) : s = "YES" := by
  unfold Outcome.ofString? at h
  split_ifs at h with h1 h2 h3 h4 h5
  · exact h1
  all_goals simp_all

theorem evalEvidenceAny_evidence_ne (S : String → String → Bool) (c : Contract)
    (patient : PatientFacts) (g : Gate) (hmin : 1 ≤ g.minCount)
    (hmax : 1 ≤ c.maxItemsPerGate)
    (hp : (evalEvidenceAny S c patient g).passed = true) :
    (evalEvidenceAny S c patient g).evidence ≠ [] := by
  unfold evalEvidenceAny at hp ⊢
  simp only [decide_eq_true_eq] at hp
  apply pySlice_ne_nil _ _ hmax
  intro h0
  rw [h0] at hp
  simp at hp
  omega

theorem evalRequiresTreatmentAny_evidence_ne (S : String → String → Bool) (c : Contract)
    (patient : PatientFacts) (g : Gate) (hmin : 1 ≤ g.minCount)
    (hmax : 1 ≤ c.maxItemsPerGate)
    (hp : (evalRequiresTreatmentAny S c patient g).passed = true) :
    (evalRequiresTreatmentAny S c patient g).evidence ≠ [] := by
  unfold evalRequiresTreatmentAny at hp ⊢
  simp only [decide_eq_true_eq] at hp
  apply pySlice_ne_nil _ _ hmax
  intro h0
  rw [h0] at hp
  simp at hp
  omega

theorem evalTimingAfterArrival_evidence_ne (S : String → String → Bool)
    (pts : String → Option (Rat × Bool)) (c : Contract)
    (patient : PatientFacts) (g : Gate) (hmax : 1 ≤ c.maxItemsPerGate)
    (hp : (evalTimingAfterArrival S pts c patient g).passed = true) :
    (evalTimingAfterArrival S pts c patient g).evidence ≠ [] := by
  unfold evalTimingAfterArrival at hp ⊢
  by_cases h0 : matchEvidence S patient g.queryKey g.allowedSources 8 = []
  · rw [h0] at hp
    simp at hp
  · have h0' := isEmpty_false_of_ne _ h0
    simp only [h0', Bool.false_eq_true, if_false] at hp ⊢
    by_cases h1 : timingAfter pts (truthyFact patient.scalars g.arrivalField)
        (matchEvidence S patient g.queryKey g.allowedSources 8) = []
    · exfalso
      simp only [h1] at hp
      by_cases h2 : g.timestampRequired = true <;> simp [h2] at hp
    · have h1' := isEmpty_false_of_ne _ h1
      simp only [h1', Bool.not_false, if_true]
      exact pySlice_ne_nil _ _ hmax h1

theorem evalGate_passed_evidence_ne (S : String → String → Bool)
    (pts : String → Option (Rat × Bool)) (c : Contract)
    (patient : PatientFacts) (g : Gate) (hmin : 1 ≤ g.minCount)
    (hmax : 1 ≤ c.maxItemsPerGate)
    (hp : (evalGate S pts c patient g).passed = true) :
    (evalGate S pts c patient g).evidence ≠ [] := by
  unfold evalGate at hp ⊢
  by_cases h1 : g.gateType = "evidence_any"
  · rw [if_pos h1] at hp ⊢
    exact evalEvidenceAny_evidence_ne S c patient g hmin hmax hp
  · rw [if_neg h1] at hp ⊢
    by_cases h2 : g.gateType = "timing_after_arrival"
    · rw [if_pos h2] at hp ⊢
      exact evalTimingAfterArrival_evidence_ne S pts c patient g hmax hp
    · rw [if_neg h2] at hp ⊢
      by_cases h3 : g.gateType = "requires_treatment_any"
      · rw [if_pos h3] at hp ⊢
        exact evalRequiresTreatmentAny_evidence_ne S c patient g hmin hmax hp
      · rw [if_neg h3] at hp ⊢
        simp at hp

theorem gateLoop_yes (S : String → String → Bool) (pts : String → Option (Rat × Bool))
    (c : Contract) (patient : PatientFacts) (eid : Int) (r : EventResult)
    (hyes : r.outcome = .YES) :
    ∀ (gates : List Gate) (trace : List GateResult),
      (∀ g ∈ gates, passTruthy g = false) →
      (∀ g ∈ gates, resolveFailOutcome g c ≠ "YES") →
      gateLoop S pts c patient eid gates trace = .ok r →
      r.gateTrace = trace ++ gates.map (evalGate S pts c patient) ∧
      ∀ g ∈ gates, g.required = true → (evalGate S pts c patient g).passed = true := by
  intro gates
  induction gates with
  | nil =>
    intro trace hnp hny h
    simp only [gateLoop, Except.ok.injEq] at h
    refine ⟨?_, by simp⟩
    rw [← h]
    simp
  | cons g gs ih =>
    intro trace hnp hny h
    have hpr : passResolve g (evalGate S pts c patient g) c = none := by
      unfold passResolve
      rw [hnp g (List.mem_cons_self g gs)]
      simp
    simp only [gateLoop, hpr] at h
    by_cases hc : (g.required && !(evalGate S pts c patient g).passed) = true
    · rw [if_pos hc] at h
      exfalso
      cases hoc : Outcome.ofString? (resolveFailOutcome g c) with
      | none => rw [hoc] at h; exact absurd h (by simp)
      | some oc =>
        rw [hoc] at h
        simp only [Except.ok.injEq] at h
        have hoY : oc = .YES := by rw [← h] at hyes; simpa using hyes
        exact hny g (List.mem_cons_self g gs) (ofString_eq_yes (hoY ▸ hoc))
    · rw [if_neg hc] at h
      have hmain := ih (trace ++ [evalGate S pts c patient g])
        (fun g' hg' => hnp g' (List.mem_cons_of_mem g hg'))
        (fun g' hg' => hny g' (List.mem_cons_of_mem g hg')) h
      refine ⟨by rw [hmain.1]; simp, ?_⟩
      intro g' hg' hreq'
      rcases List.mem_cons.mp hg' with rfl | hgs
      · cases hpass : (evalGate S pts c patient g').passed
        · exact absurd (by simp [hreq', hpass]) hc
        · rfl
      · exact hmain.2 g' hgs hreq'

/-- C3 (amended): for every NTDS event ruleset declaring at least one
required gate and every patient, if `evaluate_event` returns outcome YES,
no gate declares a truthy `pass_outcome`, no gate's resolved fail-outcome
token is `"YES"`, every gate's `min_count` is at least 1, and the contract's
`max_items_per_gate` is at least 1, then some required gate's `GateResult`
in `gate_trace` has `passed = true` and a non-empty evidence list.  The
amendment adds the last four side conditions: without them a `min_count = 0`
gate passes with empty evidence (see the counterexample), a gate whose
`fail_outcome` resolves to YES can fail into outcome YES, a non-required
`pass_outcome` gate can short-circuit to YES, and a zero evidence cap
truncates every list to empty. -/
theorem ntds_yes_implies_required_gate_evidence (S : String → String → Bool)
    (pts : String → Option (Rat × Bool)) (rules : EventRules) (c : Contract)
    (patient : PatientFacts) (r : EventResult)
    (hmin : ∀ g ∈ rules.gates, 1 ≤ g.minCount)
    (hmax : 1 ≤ c.maxItemsPerGate)
    (hnp : ∀ g ∈ rules.gates, passTruthy g = false)
    (hny : ∀ g ∈ rules.gates, resolveFailOutcome g c ≠ "YES")
    (hreqex : ∃ g ∈ rules.gates, g.required = true)
    (hok : evaluateEvent S pts rules c patient = .ok r)
    (hyes : r.outcome = .YES) :
    ∃ g ∈ rules.gates, g.required = true ∧
      (evalGate S pts c patient g).passed = true ∧
      (evalGate S pts c patient g).evidence ≠ [] ∧
      evalGate S pts c patient g ∈ r.gateTrace := by
  unfold evaluateEvent at hok
  cases hx : exclLoop S c patient rules.exclusions with
  | some hs =>
    rw [hx] at hok
    simp only [Except.ok.injEq] at hok
    rw [← hok] at hyes
    simp at hyes
  | none =>
    rw [hx] at hok
    obtain ⟨htr, hall⟩ :=
      gateLoop_yes S pts c patient rules.eventId r hyes rules.gates [] hnp hny hok
    obtain ⟨g, hg, hreq⟩ := hreqex
    refine ⟨g, hg, hreq, hall g hg hreq,
      evalGate_passed_evidence_ne S pts c patient g (hmin g hg) hmax (hall g hg hreq), ?_⟩
    rw [htr]
    simpa using List.mem_map_of_mem (evalGate S pts c patient) hg

def c3Gate : Gate := { gateType := "evidence_any", gateId := "g1", minCount := 0 }

def c3Rules : EventRules := { gates := [c3Gate] }

/-- C3 counterexample: with a single required `evidence_any` gate declaring
`min_count = 0` and a patient with no evidence, `evaluate_event` returns
outcome YES while the (only, required) gate's trace entry has an empty
evidence list — the claim as stated is false. -/
theorem ntds_yes_evidence_counterexample :
    evaluateEvent c1S c1Pts c3Rules c1Contract c1Patient
      = .ok ⟨0, .YES, none, [⟨"g1", true, "Evidence found.", []⟩], []⟩ ∧
    c3Gate ∈ c3Rules.gates ∧ c3Gate.required = true :=
  ⟨rfl, by decide, rfl⟩

def c3RulesB : EventRules := { gates := [c1Gate] }

theorem ntds_yes_implies_required_gate_evidence_witness :
    (evalGate c2S c1Pts c1Contract c2Patient c1Gate).passed = true ∧
    (evalGate c2S c1Pts c1Contract c2Patient c1Gate).evidence ≠ [] := by
  obtain ⟨g, hg, _, hp, hev, _⟩ :=
    ntds_yes_implies_required_gate_evidence c2S c1Pts c3RulesB c1Contract c2Patient
      ⟨0, .YES, none, [evalGate c2S c1Pts c1Contract c2Patient c1Gate], []⟩
      (by decide) (by decide) (by decide) (by decide)
      ⟨c1Gate, by decide, rfl⟩ rfl rfl
  have hgc : g = c1Gate := by simpa [c3RulesB] using hg
  rw [hgc] at hp hev
  exact ⟨hp, hev⟩

end NTDS

namespace NTDS

/-! ## C9 support: evidence caps in the NTDS engine -/

theorem evalEvidenceAny_evidence_le (S : String → String → Bool) (c : Contract)
    (patient : PatientFacts) (g : Gate) (hmax : 0 ≤ c.maxItemsPerGate) :
    (((evalEvidenceAny S c patient g).evidence).length : Int) ≤ c.maxItemsPerGate := by
  exact pySlice_length_le _ _ hmax

theorem evalRequiresTreatmentAny_evidence_le (S : String → String → Bool) (c : Contract)
    (patient : PatientFacts) (g : Gate) (hmax : 0 ≤ c.maxItemsPerGate) :
    (((evalRequiresTreatmentAny S c patient g).evidence).length : Int) ≤ c.maxItemsPerGate := by
  exact pySlice_length_le _ _ hmax

theorem evalTimingAfterArrival_evidence_le (S : String → String → Bool)
    (pts : String → Option (Rat × Bool)) (c : Contract) (patient : PatientFacts)
    (g : Gate) (hmax : 0 ≤ c.maxItemsPerGate) :
    (((evalTimingAfterArrival S pts c patient g).evidence).length : Int)
      ≤ c.maxItemsPerGate := by
  unfold evalTimingAfterArrival
  repeat' split
  all_goals first
    | simpa using hmax
    | exact pySlice_length_le _ _ hmax

theorem evalGate_evidence_le (S : String → String → Bool)
    (pts : String → Option (Rat × Bool)) (c : Contract) (patient : PatientFacts)
    (g : Gate) (hmax : 0 ≤ c.maxItemsPerGate) :
    (((evalGate S pts c patient g).evidence).length : Int) ≤ c.maxItemsPerGate := by
  unfold evalGate
  split
  · exact evalEvidenceAny_evidence_le S c patient g hmax
  · split
    · exact evalTimingAfterArrival_evidence_le S pts c patient g hmax
    · split
      · exact evalRequiresTreatmentAny_evidence_le S c patient g hmax
      · simpa using hmax

theorem exclGo_evidence_le (S : String → String → Bool) (c : Contract)
    (patient : PatientFacts) (ex : Excl) (hmax : 0 ≤ c.maxItemsPerGate) :
    ∀ (qks : List String) (hs : HardStop), exclGo S c patient ex qks = some hs →
      ((hs.evidence).length : Int) ≤ c.maxItemsPerGate := by
  intro qks
  induction qks with
  | nil => intro hs h; simp [exclGo] at h
  | cons qk rest ih =>
    intro hs h
    simp only [exclGo] at h
    repeat' split at h
    all_goals first
      | exact ih hs h
      | (simp only [Option.some.injEq] at h; rw [← h]; exact pySlice_length_le _ _ hmax)

theorem exclLoop_some_inv (S : String → String → Bool) (c : Contract)
    (patient : PatientFacts) :
    ∀ (exs : List Excl) (hs : HardStop),
      exclLoop S c patient exs = some hs →
      ∃ ex ∈ exs, ex.gateType = "exclude_if_any" ∧
        evalExcludeIfAny S c patient ex = some hs := by
  intro exs
  induction exs with
  | nil => intro hs h; simp [exclLoop] at h
  | cons e0 rest ih =>
    intro hs h
    simp only [exclLoop] at h
    split at h
    · obtain ⟨ex, hmem, hty, hv⟩ := ih hs h
      exact ⟨ex, List.mem_cons_of_mem e0 hmem, hty, hv⟩
    · rename_i hty0
      cases hv0 : evalExcludeIfAny S c patient e0 with
      | some h0 =>
        rw [hv0] at h
        have hh : h0 = hs := by simpa using h
        exact ⟨e0, List.mem_cons_self e0 rest, not_not.mp hty0, hh ▸ hv0⟩
      | none =>
        rw [hv0] at h
        obtain ⟨ex, hmem, hty, hv⟩ := ih hs h
        exact ⟨ex, List.mem_cons_of_mem e0 hmem, hty, hv⟩

theorem gateLoop_evidence_bounds (S : String → String → Bool)
    (pts : String → Option (Rat × Bool)) (c : Contract) (patient : PatientFacts)
    (eid : Int) (hmax : 0 ≤ c.maxItemsPerGate) :
    ∀ (gates : List Gate) (trace : List GateResult) (r : EventResult),
      (∀ gr ∈ trace, ((gr.evidence).length : Int) ≤ c.maxItemsPerGate) →
      gateLoop S pts c patient eid gates trace = .ok r →
      (∀ gr ∈ r.gateTrace, ((gr.evidence).length : Int) ≤ c.maxItemsPerGate) ∧
      (∀ hs, r.hardStop = some hs → ((hs.evidence).length : Int) ≤ c.maxItemsPerGate) := by
  intro gates
  induction gates with
  | nil =>
    intro trace r htr h
    simp only [gateLoop, Except.ok.injEq] at h
    rw [← h]
    exact ⟨by simpa using htr, by intro hs hhs; simp at hhs⟩
  | cons g gs ih =>
    intro trace r htr h
    have hgb := evalGate_evidence_le S pts c patient g hmax
    have htr' : ∀ gr ∈ trace ++ [evalGate S pts c patient g],
        ((gr.evidence).length : Int) ≤ c.maxItemsPerGate := by
      intro gr hgr
      rcases List.mem_append.mp hgr with hin | hone
      · exact htr gr hin
      · rw [List.mem_singleton.mp hone]; exact hgb
    simp only [gateLoop] at h
    cases hpr : passResolve g (evalGate S pts c patient g) c with
    | some oc =>
      rw [hpr] at h
      simp only [Except.ok.injEq] at h
      rw [← h]
      refine ⟨by simpa using htr', ?_⟩
      intro hs hhs
      simp only [Option.some.injEq] at hhs
      rw [← hhs]
      exact hgb
    | none =>
      rw [hpr] at h
      by_cases hc : (g.required && !(evalGate S pts c patient g).passed) = true
      · rw [if_pos hc] at h
        cases hoc : Outcome.ofString? (resolveFailOutcome g c) with
        | none => rw [hoc] at h; exact absurd h (by simp)
        | some oc =>
          rw [hoc] at h
          simp only [Except.ok.injEq] at h
          rw [← h]
          exact ⟨by simpa using htr', by intro hs hhs; simp at hhs⟩
      · rw [if_neg hc] at h
        exact ih _ _ htr' h

end NTDS

namespace Proto

/-! ## C9 support: evidence caps in the protocol evaluators -/

theorem trigCondEval_early_evidence (env : Env) (patient : PFacts) (req : Req)
    (maxItems : Int) (condStr : String) (r : PStepResult)
    (h : trigCondEval env patient req maxItems condStr = .earlyReturn r) :
    r.evidence = [] := by
  simp only [trigCondEval] at h
  repeat' split at h
  all_goals simp_all
  all_goals (rw [← h])

theorem trigLoop_evidence_le (env : Env) (patient : PFacts) (req : Req)
    (maxItems : Int) (hmax : 0 ≤ maxItems) :
    ∀ (conds : List String) (i : Nat) (hits : List PEvidence)
      (dets : List MatchDetail) (missing : List String),
      (((trigLoop env patient req maxItems conds i hits dets missing).evidence).length : Int)
        ≤ maxItems := by
  intro conds
  induction conds with
  | nil =>
    intro i hits dets missing
    simp only [trigLoop, trigFinal]
    split
    · exact pySlice_length_le _ _ hmax
    · split
      · simpa using hmax
      · exact pySlice_length_le _ _ hmax
  | cons cond rest ih =>
    intro i hits dets missing
    simp only [trigLoop]
    split
    · rename_i r hstep
      have hre := trigCondEval_early_evidence env patient req maxItems (pyStripS cond) r hstep
      simp [hre, hmax]
    · split
      · exact ih _ _ _ _
      · split
        · simpa using hmax
        · exact ih _ _ _ _

theorem rdeLoop_evidence_le (env : Env) (patient : PFacts) (req : Req)
    (maxItems : Int) (hmax : 0 ≤ maxItems) :
    ∀ (elems : List String) (hits : List PEvidence)
      (dets : List MatchDetail) (missing : List String),
      (((rdeLoop env patient req maxItems elems hits dets missing).evidence).length : Int)
        ≤ maxItems := by
  intro elems
  induction elems with
  | nil =>
    intro hits dets missing
    simp only [rdeLoop]
    split
    · exact pySlice_length_le _ _ hmax
    · exact pySlice_length_le _ _ hmax
  | cons elem rest ih =>
    intro hits dets missing
    simp only [rdeLoop]
    split
    · exact ih _ _ _
    · exact ih _ _ _

end Proto

/-- C9: every evidence list attached to a returned result is capped by the
contract's configured maximum — every `GateResult` in `gate_trace` and any
`HardStop` of an NTDS `evaluate_event` result is capped at
`evidence.max_items_per_gate`, and the `StepResult`s of
`eval_trigger_criteria` and `eval_required_data_elements` are capped at
`evidence.max_items_per_requirement` — for every ruleset, contract and
patient (with the configured maxima read as counts, i.e. non-negative). -/
theorem evidence_lists_capped (S : String → String → Bool)
    (pts : String → Option (Rat × Bool)) (rules : NTDS.EventRules)
    (c : NTDS.Contract) (patient : NTDS.PatientFacts) (env : Proto.Env)
    (pp : Proto.PFacts) (req : Proto.Req) (pc : Proto.PContract)
    (hg : 0 ≤ c.maxItemsPerGate) (hr : 0 ≤ pc.maxItemsPerRequirement) :
    (∀ r, NTDS.evaluateEvent S pts rules c patient = .ok r →
       (∀ gr ∈ r.gateTrace, ((gr.evidence).length : Int) ≤ c.maxItemsPerGate) ∧
       (∀ hs, r.hardStop = some hs → ((hs.evidence).length : Int) ≤ c.maxItemsPerGate)) ∧
    (((Proto.evalTriggerCriteria env pp req pc).evidence).length : Int)
      ≤ pc.maxItemsPerRequirement ∧
    (((Proto.evalRequiredDataElements env pp req pc).evidence).length : Int)
      ≤ pc.maxItemsPerRequirement := by
  refine ⟨?_, Proto.trigLoop_evidence_le env pp req _ hr _ _ _ _ _,
          Proto.rdeLoop_evidence_le env pp req _ hr _ _ _ _⟩
  intro r hok
  unfold NTDS.evaluateEvent at hok
  cases hx : NTDS.exclLoop S c patient rules.exclusions with
  | some hs =>
    rw [hx] at hok
    simp only [Except.ok.injEq] at hok
    rw [← hok]
    refine ⟨by intro gr hgr; simp at hgr, ?_⟩
    intro hs' hhs
    simp only [Option.some.injEq] at hhs
    rw [← hhs]
    obtain ⟨ex, hmem, hty, hv⟩ :=
      NTDS.exclLoop_some_inv S c patient rules.exclusions hs hx
    exact NTDS.exclGo_evidence_le S c patient ex hg ex.queryKeys hs hv
  | none =>
    rw [hx] at hok
    exact NTDS.gateLoop_evidence_bounds S pts c patient rules.eventId hg
      rules.gates [] r (by intro gr hgr; simp at hgr) hok

def c9Env : Proto.Env :=
  { finditer := fun _ _ => [], parseDT := fun _ => none,
    parseFloat := fun _ => none, extract := fun _ _ => none }

def c9Facts : Proto.PFacts := { actionPatterns := [], scalars := [], evidence := [] }

def c9Req : Proto.Req := { id := "REQ_TRIGGER_CRITERIA" }

theorem evidence_lists_capped_witness :
    ((((NTDS.evalGate NTDS.c1S NTDS.c1Pts NTDS.c1Contract NTDS.c1Patient
          NTDS.c1Gate).evidence).length : Int) ≤ NTDS.c1Contract.maxItemsPerGate) ∧
    (((Proto.evalTriggerCriteria c9Env c9Facts c9Req {}).evidence).length : Int)
      ≤ Proto.PContract.maxItemsPerRequirement {} := by
  have h := evidence_lists_capped NTDS.c1S NTDS.c1Pts NTDS.c1Rules NTDS.c1Contract
    NTDS.c1Patient c9Env c9Facts c9Req {} (by decide) (by decide)
  refine ⟨?_, h.2.1⟩
  exact (h.1 ⟨0, .UNABLE_TO_DETERMINE, none,
              [NTDS.evalGate NTDS.c1S NTDS.c1Pts NTDS.c1Contract NTDS.c1Patient
                 NTDS.c1Gate], []⟩ rfl).1
    (NTDS.evalGate NTDS.c1S NTDS.c1Pts NTDS.c1Contract NTDS.c1Patient NTDS.c1Gate) (by simp)

namespace Proto

/-! ## C8: negation scope bounding -/

theorem lastBreakCharIdxInt_lt_drop :
    ∀ (l : List Char) (k : Nat), lastBreakCharIdxInt l < (k : Int) →
      ∀ c_ ∈ l.drop k, isBreakChar c_ = false := by
  intro l
  induction l with
  | nil => intro k hk c_ hc; simp at hc
  | cons c0 rest ih =>
    intro k hk c_ hc
    cases k with
    | zero =>
      simp only [lastBreakCharIdxInt] at hk
      by_cases hr : 0 ≤ lastBreakCharIdxInt rest
      · rw [if_pos hr] at hk; omega
      · rw [if_neg hr] at hk
        by_cases hb : isBreakChar c0 = true
        · rw [if_pos hb] at hk; omega
        · rcases List.mem_cons.mp (by simpa using hc) with rfl | hcr
          · simpa using hb
          · exact ih 0 (by omega) c_ (by simpa using hcr)
    | succ kp =>
      have hrest : lastBreakCharIdxInt rest < (kp : Int) := by
        simp only [lastBreakCharIdxInt] at hk
        by_cases hr : 0 ≤ lastBreakCharIdxInt rest
        · rw [if_pos hr] at hk; push_cast at hk ⊢; omega
        · push_neg at hr; omega
      exact ih kp hrest c_ (by simpa using hc)

theorem phraseStep_le (pt : List Char) (lb : Int) (phrase : String) :
    lb ≤ phraseStep pt lb phrase := by
  unfold phraseStep
  split
  · rename_i hcond
    have : (0 : Int) ≤ (phrase.length : Int) := by positivity
    omega
  · exact le_refl lb

theorem foldl_phraseStep_le (pt : List Char) :
    ∀ (ps : List String) (lb : Int), lb ≤ ps.foldl (phraseStep pt) lb := by
  intro ps
  induction ps with
  | nil => intro lb; exact le_refl lb
  | cons p rest ih =>
    intro lb
    exact le_trans (phraseStep_le pt lb p) (ih (phraseStep pt lb p))

theorem lastBreakCharIdxInt_le_lastScopeBreak (pt : List Char) :
    lastBreakCharIdxInt pt ≤ lastScopeBreak pt :=
  foldl_phraseStep_le pt scopeBreakerPhrases (lastBreakCharIdxInt pt)

/-- C8: for every text and occurrence span, negation is decided only from
the scope-trimmed windows: if neither the pre-window trimmed after its last
scope breaker contains a pre-negation cue, nor the post-window trimmed at
its first scope breaker contains a post-negation cue, then `_is_negated`
returns false — so a cue lying before the last scope-breaking token of the
30-character pre-window (which the trimming removes) never causes negation;
moreover the trimmed pre-window never contains a scope-breaking character.
In particular, in "No fracture seen. Dislocation confirmed on CT." the
occurrence of "Dislocation" (span 18..29) is not negated despite the
preceding sentence's "No", while "dislocation" in "no dislocation"
(span 3..14) is negated. -/
theorem negation_scope_breaker :
    (∀ (text : List Char) (s e : Nat),
       preNegFound (trimmedPre text s) = false →
       postNegFound (trimmedPost text e) = false →
       isNegated text s e = false) ∧
    (∀ (text : List Char) (s : Nat), ∀ c_ ∈ trimmedPre text s, isBreakChar c_ = false) ∧
    isNegated "No fracture seen. Dislocation confirmed on CT.".data 18 29 = false ∧
    isNegated "no dislocation".data 3 14 = true := by
  refine ⟨?_, ?_, by decide, by decide⟩
  · intro text s e h1 h2
    unfold isNegated
    rw [h1, h2]
    rfl
  · intro text s c_ hc
    unfold trimmedPre at hc
    have h2 := lastBreakCharIdxInt_le_lastScopeBreak (preWindow text s)
    by_cases hlb : 0 ≤ lastScopeBreak (preWindow text s)
    · rw [if_pos hlb] at hc
      refine lastBreakCharIdxInt_lt_drop (preWindow text s) _ ?_ c_ hc
      have h3 : (((lastScopeBreak (preWindow text s)) + 1).toNat : Int)
          = lastScopeBreak (preWindow text s) + 1 := Int.toNat_of_nonneg (by omega)
      omega
    · rw [if_neg hlb] at hc
      refine lastBreakCharIdxInt_lt_drop (preWindow text s) 0 ?_ c_ (by simpa using hc)
      omega

theorem negation_scope_breaker_witness :
    isNegated "Fracture noted on imaging.".data 0 8 = false :=
  negation_scope_breaker.1 "Fracture noted on imaging.".data 0 8 (by decide) (by decide)

end Proto

theorem scanEvidence_singleton {α} (pred : α → Bool) (maxHits : Int) (e : α)
    (hp : pred e = true) : scanEvidence pred maxHits [e] = [e] := by
  simp [scanEvidence, hp]

namespace Proto

/-! ## C6: the temporal-window condition -/

/-- C6: for every environment, patient and parsed `temporal:within:N:unit:key`
condition, `_evaluate_temporal_condition` returns `(False, [])` whenever the
patient facts contain no parseable `arrival_time`; otherwise it passes
exactly when at least one evidence block matched for the key (by the
engine's own matcher call, with its defaults) carries a parseable timestamp
`t` with `arrival <= t <= arrival + N·unit`, both boundaries inclusive. -/
theorem temporal_within_window (env : Env) (patient : PFacts) (cond : String)
    (tc : Temporal) (allowed : Option (List String)) (maxHits : Int)
    (hparse : parseTemporalCondition env.parseFloat cond = some tc) :
    (arrivalOf env patient = none →
       evalTemporalCondition env patient tc allowed maxHits = (false, [])) ∧
    (∀ a, arrivalOf env patient = some a →
       ((evalTemporalCondition env patient tc allowed maxHits).1 = true ↔
         ∃ e ∈ pMatchEvidence env patient tc.patternKey allowed maxHits true true 24,
           ∃ t, tsParse env e = some t ∧ a ≤ t ∧ t ≤ a + maxDeltaSecs tc)) := by
  constructor
  · intro h
    simp only [evalTemporalCondition, h]
  · intro a ha
    simp only [evalTemporalCondition, ha]
    by_cases hh : pMatchEvidence env patient tc.patternKey allowed maxHits true true 24 = []
    · simp [hh]
    · have hh' := isEmpty_false_of_ne _ hh
      simp only [hh', Bool.false_eq_true, if_false]
      have predIff : ∀ e : PEvidence,
          withinPred env a (maxDeltaSecs tc) e = true ↔
            ∃ t, tsParse env e = some t ∧ a ≤ t ∧ t ≤ a + maxDeltaSecs tc := by
        intro e
        unfold withinPred
        cases hts : tsParse env e with
        | none => simp
        | some t => simp
      constructor
      · intro hb
        have hne : (pMatchEvidence env patient tc.patternKey allowed maxHits true true 24).filter
            (withinPred env a (maxDeltaSecs tc)) ≠ [] := by
          intro h0
          rw [h0] at hb
          simp at hb
        obtain ⟨e, hef⟩ := List.exists_mem_of_ne_nil _ hne
        obtain ⟨hmem, hpred⟩ := List.mem_filter.mp hef
        exact ⟨e, hmem, (predIff e).mp hpred⟩
      · rintro ⟨e, hmem, t, hts, h1, h2⟩
        have hef : e ∈ (pMatchEvidence env patient tc.patternKey allowed maxHits true true 24).filter
            (withinPred env a (maxDeltaSecs tc)) :=
          List.mem_filter.mpr ⟨hmem, (predIff e).mpr ⟨t, hts, h1, h2⟩⟩
        simp [isEmpty_false_of_ne _ (List.ne_nil_of_mem hef)]

/-- All occurrences of a literal pattern in the text, by a step-one sliding
scan: a concrete instantiation of the `finditer` leaf used by the
witnesses (for the literal patterns and texts in scope it coincides with
`re.finditer` on the escaped pattern). -/
def slidingOccs (pat : List Char) : List Char → Nat → List (Nat × Nat)
  | [], _ => []
  | txt@(_ :: rest), i =>
    if pat ≠ [] ∧ startsList pat txt then
      (i, i + pat.length) :: slidingOccs pat rest (i + 1)
    else slidingOccs pat rest (i + 1)

def literalFinditer (p : String) (txt : List Char) : List (Nat × Nat) :=
  slidingOccs p.data txt 0

end Proto

def c6ParseDT : String → Option Rat := fun s =>
  if s = "2026-01-15T10:00:00" then some 0
  else if s = "2026-01-16T09:00:00" then some 82800
  else none

def c6Env : Proto.Env :=
  { finditer := Proto.literalFinditer, parseDT := c6ParseDT,
    parseFloat := fun s => if s = "24" then some 24 else none,
    extract := fun _ _ => none }

def c6Ev : Proto.PEvidence :=
  { sourceType := "MAR", timestamp := some "2026-01-16T09:00:00",
    text := "heparin given".data }

def c6Patient : Proto.PFacts :=
  { actionPatterns := [("hep", ["heparin"])],
    scalars := [("arrival_time", "2026-01-15T10:00:00")],
    evidence := [c6Ev] }

theorem temporal_within_window_witness :
    (Proto.evalTemporalCondition c6Env c6Patient ⟨24, "hours", "hep"⟩ none 8).1 = true := by
  have harr : Proto.arrivalOf c6Env c6Patient = some 0 := rfl
  have hskip : Proto.admissionSkips c6Env (some 0) 24 c6Ev = false := by
    show decide ((((24 : Int) : Rat)) * 3600 < 0 - 82800) = false
    rw [decide_eq_false_iff_not]
    push_cast
    norm_num
  have hacc : Proto.acceptBlock c6Env ["heparin"] none (some 0) 24 true true c6Ev = true := by
    unfold Proto.acceptBlock
    rw [hskip]
    decide
  have hmatch : Proto.pMatchEvidence c6Env c6Patient "hep" none 8 true true 24 = [c6Ev] := by
    show scanEvidence (Proto.acceptBlock c6Env ["heparin"] none (some 0) 24 true true)
      8 [c6Ev] = [c6Ev]
    exact scanEvidence_singleton _ _ _ hacc
  refine ((Proto.temporal_within_window c6Env c6Patient "temporal:within:24:hours:hep"
    ⟨24, "hours", "hep"⟩ none 8 (by decide)).2 0 harr).mpr
    ⟨c6Ev, by rw [hmatch]; exact List.mem_singleton.mpr rfl, 82800, rfl, by norm_num, ?_⟩
  show (82800 : Rat) ≤ 0 + Proto.maxDeltaSecs ⟨24, "hours", "hep"⟩
  unfold Proto.maxDeltaSecs
  norm_num

namespace Proto

/-! ## C10: the admission-window filter and unparseable timestamps -/

/-- C10: in the protocol engine's `match_evidence`, when
`admission_window_hours > 0` and the patient facts contain a parseable
`arrival_time`, a block whose timestamp is missing, falsy, or unparseable is
never excluded by the admission-window filter: the per-block acceptance
predicate degenerates to the source filter plus the pattern scan, and
`match_evidence` is exactly the capped scan of that predicate over the
evidence (so such a block may appear in the returned hits). -/
theorem admission_window_unparseable (env : Env) (patient : PFacts) (key : String)
    (allowed : Option (List String)) (maxHits windowHours : Int) (nA sH : Bool)
    (e : PEvidence) (hw : 0 < windowHours) (ha : arrivalOf env patient ≠ none)
    (hts : tsParse env e = none) :
    acceptBlock env (pPatternsForKey patient key) allowed (arrivalOf env patient)
        windowHours nA sH e
      = (sourceOk allowed e.sourceType
          && blockMatches env (pPatternsForKey patient key) nA sH e.text) ∧
    (¬(pPatternsForKey patient key).isEmpty = true →
      pMatchEvidence env patient key allowed maxHits nA sH windowHours
        = scanEvidence (acceptBlock env (pPatternsForKey patient key) allowed
            (arrivalOf env patient) windowHours nA sH) maxHits patient.evidence) := by
  have hskip : admissionSkips env (arrivalOf env patient) windowHours e = false := by
    unfold admissionSkips
    cases harr : arrivalOf env patient with
    | none => simp
    | some a =>
      cases htt : tsTruthy e with
      | none => simp
      | some ts =>
        have hdt : env.parseDT ts = none := by
          unfold tsParse at hts
          rw [htt] at hts
          simpa using hts
        simp [hdt]
  constructor
  · unfold acceptBlock
    rw [hskip]
    simp
  · intro hne
    unfold pMatchEvidence
    rw [if_neg hne, if_pos hw]

end Proto

def c10Ev : Proto.PEvidence :=
  { sourceType := "IMAGING", timestamp := some "not-a-date", text := "heparin drip".data }

def c10Patient : Proto.PFacts :=
  { actionPatterns := [("hep", ["heparin"])],
    scalars := [("arrival_time", "2026-01-15T10:00:00")],
    evidence := [c10Ev] }

theorem admission_window_unparseable_witness :
    Proto.pMatchEvidence c6Env c10Patient "hep" none 8 true true 24 = [c10Ev] := by
  have h := Proto.admission_window_unparseable c6Env c10Patient "hep" none 8 24 true true
    c10Ev (by norm_num)
    (by simp [show Proto.arrivalOf c6Env c10Patient = some (0 : Rat) from rfl]) rfl
  rw [h.2 (by decide)]
  refine scanEvidence_singleton _ _ _ ?_
  rw [h.1]
  decide

namespace Proto

/-! ## C4: `match_evidence_with_details` inspects only the first pattern -/

def c4Ev : PEvidence :=
  { sourceType := "ED_NOTE", timestamp := none, text := "beta".data }

def c4Patient : PFacts :=
  { actionPatterns := [("k", ["alpha", "beta"])], scalars := [], evidence := [c4Ev] }

def c4Env : Env :=
  { finditer := literalFinditer, parseDT := fun _ => none,
    parseFloat := fun _ => none, extract := fun _ _ => none }

/-- C4: `match_evidence` and `match_evidence_with_details` do NOT select the
same blocks.  With pattern key `k` bound to two patterns `["alpha","beta"]`
and a single block whose text matches only the second pattern (identical
flag settings on both calls), `match_evidence` returns the block while
`match_evidence_with_details` returns nothing: its guard
`len(hits) > len(details) - 1` is always true (the two lists grow in
lockstep), so the pattern loop breaks after the first compiled pattern. -/
theorem match_details_first_pattern_only :
    pMatchEvidence c4Env c4Patient "k" none 8 false false 0 = [c4Ev] ∧
    pMatchEvidenceWithDetails c4Env c4Patient "k" none 8 false false 0 = ([], []) := by
  decide

/-! ## C5: the trigger keyword fallback marks conditions found unconditionally -/

def c5Ev : PEvidence :=
  { sourceType := "ED_NOTE", timestamp := none, text := "alpha kw1 beta".data }

def c5Patient : PFacts :=
  { actionPatterns := [], scalars := [], evidence := [c5Ev] }

def c5Req : Req :=
  { id := "REQ_TRIGGER_CRITERIA", triggerConditions := ["kw1", "kw2"],
    acceptableEvidence := [] }

/-- C5: at the keyword fallback, `eval_trigger_criteria` counts a condition
as found as soon as any block passing the source filter exists, even when no
block contains the condition as a case-insensitive substring — here "kw2"
appears in no evidence text, yet the requirement passes with no missing
data.  On the same input, `eval_required_data_elements` (whose fallback has
the substring test correctly guarding `found`) reports "kw2" missing and
fails, as the claim describes. -/
theorem trigger_keyword_fallback_bug :
    (evalTriggerCriteria c4Env c5Patient c5Req {}).passed = true ∧
    (evalTriggerCriteria c4Env c5Patient c5Req {}).missingData = [] ∧
    c5Patient.evidence = [c5Ev] ∧
    containsCI "kw2" c5Ev.text = false ∧
    (evalRequiredDataElements c4Env c5Patient c5Req {}).passed = false ∧
    (evalRequiredDataElements c4Env c5Patient c5Req {}).missingData = ["kw2"] := by
  exact ⟨by decide, by decide, rfl, by decide, by decide, by decide⟩

/-! ## C7: the two numeric-threshold failure states -/

theorem numThGo_no_sat (env : Env) (param op : String) (thr : Rat)
    (allowed : Option (List String)) (maxHits : Int) :
    ∀ (l : List PEvidence),
      (∀ e ∈ l, sourceOk allowed e.sourceType = true →
        ∀ v, env.extract param e.text = some v → compareNumeric v op thr = false) →
      ∀ hits passed vf,
        numThGo env param op thr allowed maxHits l hits passed vf
          = (passed, hits,
             vf || l.any (fun e =>
               sourceOk allowed e.sourceType && (env.extract param e.text).isSome)) := by
  intro l
  induction l with
  | nil => intro _ hits passed vf; simp [numThGo]
  | cons e rest ih =>
    intro h hits passed vf
    have hrest := ih (fun e' he' => h e' (List.mem_cons_of_mem e he'))
    simp only [numThGo]
    by_cases hsrc : sourceOk allowed e.sourceType = true
    · rw [if_neg (by simp [hsrc])]
      split
      · rename_i hex
        rw [hrest hits passed vf]
        simp [List.any_cons, hsrc, hex]
      · rename_i v hex
        rw [h e (List.mem_cons_self e rest) hsrc v hex]
        rw [if_neg (by simp)]
        rw [hrest hits passed true]
        simp [List.any_cons, hsrc, hex]
    · rw [if_pos (by simp [Bool.not_eq_true] at hsrc ⊢; exact hsrc)]
      rw [hrest hits passed vf]
      simp only [List.any_cons]
      rw [Bool.not_eq_true] at hsrc
      simp [hsrc]

/-- C7: when a trigger condition parses as `parameter:operator:threshold` and
no extracted value ever satisfies the operator, `eval_trigger_criteria`
distinguishes the two failure states on its first condition: if some
source-acceptable block yields an extracted value, it returns the definitive
threshold-not-met `StepResult` (empty `missing_data`); if no block yields a
value at all, the condition is treated as missing data — a NOT_TRIGGERED
primary-criteria result whose `missing_data` lists the condition. -/
theorem numeric_threshold_fail_states (env : Env) (patient : PFacts) (req : Req)
    (pc : PContract) (cond : String) (rest : List String) (param op : String) (thr : Rat)
    (hconds : req.triggerConditions = cond :: rest)
    (hparse : parseNumericThreshold env.parseFloat (pyStripS cond) = some (param, op, thr))
    (hnosat : ∀ e ∈ patient.evidence, sourceOk (acceptAllowed req) e.sourceType = true →
        ∀ v, env.extract param e.text = some v → compareNumeric v op thr = false) :
    ((∃ e ∈ patient.evidence, sourceOk (acceptAllowed req) e.sourceType = true ∧
        (env.extract param e.text).isSome = true) →
      evalTriggerCriteria env patient req pc
        = ⟨req.id, "MANDATORY", false, thresholdFailReason param op thr, [], [], []⟩) ∧
    ((∀ e ∈ patient.evidence, sourceOk (acceptAllowed req) e.sourceType = true →
        env.extract param e.text = none) →
      evalTriggerCriteria env patient req pc
        = ⟨req.id, "MANDATORY", false, "NOT_TRIGGERED: Primary trigger criteria not met",
           [], [pyTake50 (pyStripS cond)], []⟩) := by
  have hgo := numThGo_no_sat env param op thr (acceptAllowed req)
    pc.maxItemsPerRequirement patient.evidence hnosat [] false false
  constructor
  · intro hsome
    have hany : patient.evidence.any (fun e =>
        sourceOk (acceptAllowed req) e.sourceType && (env.extract param e.text).isSome)
          = true := by
      obtain ⟨e, hmem, h1, h2⟩ := hsome
      exact List.any_eq_true.mpr ⟨e, hmem, by rw [h1, h2]; rfl⟩
    have h1 : evalNumericThreshold env patient param op thr (acceptAllowed req)
        pc.maxItemsPerRequirement = (false, [], true) := by
      unfold evalNumericThreshold
      rw [hgo, hany]
      rfl
    have hstep : trigCondEval env patient req pc.maxItemsPerRequirement (pyStripS cond)
        = .earlyReturn ⟨req.id, "MANDATORY", false, thresholdFailReason param op thr,
                        [], [], []⟩ := by
      simp only [trigCondEval, hparse, h1]
      simp
    unfold evalTriggerCriteria
    rw [hconds]
    simp only [trigLoop, hstep]
  · intro hnone
    have hany : patient.evidence.any (fun e =>
        sourceOk (acceptAllowed req) e.sourceType && (env.extract param e.text).isSome)
          = false := by
      rw [List.any_eq_false]
      intro e hmem
      by_cases hsrc : sourceOk (acceptAllowed req) e.sourceType = true
      · rw [hsrc, hnone e hmem hsrc]
        simp
      · rw [Bool.not_eq_true] at hsrc
        simp [hsrc]
    have h1 : evalNumericThreshold env patient param op thr (acceptAllowed req)
        pc.maxItemsPerRequirement = (false, [], false) := by
      unfold evalNumericThreshold
      rw [hgo, hany]
      rfl
    have hstep : trigCondEval env patient req pc.maxItemsPerRequirement (pyStripS cond)
        = .advance false [] [] := by
      simp only [trigCondEval, hparse, h1]
      simp
    unfold evalTriggerCriteria
    rw [hconds]
    simp only [trigLoop, hstep]
    simp

end Proto

def c7Env : Proto.Env :=
  { finditer := fun _ _ => [], parseDT := fun _ => none,
    parseFloat := fun s => if s = "16" then some 16 else none,
    extract := fun p t =>
      if p = "age" then (if t = "45-year-old".data then some 45 else none) else none }

def c7EvA : Proto.PEvidence :=
  { sourceType := "ED_NOTE", timestamp := none, text := "45-year-old".data }

def c7PatientA : Proto.PFacts :=
  { actionPatterns := [], scalars := [], evidence := [c7EvA] }

def c7EvB : Proto.PEvidence :=
  { sourceType := "ED_NOTE", timestamp := none, text := "fell from ladder".data }

def c7PatientB : Proto.PFacts :=
  { actionPatterns := [], scalars := [], evidence := [c7EvB] }

def c7Req : Proto.Req :=
  { id := "REQ_TRIGGER_CRITERIA", triggerConditions := ["age:<:16"],
    acceptableEvidence := [] }

theorem numeric_threshold_fail_states_witness :
    Proto.evalTriggerCriteria c7Env c7PatientA c7Req {}
      = ⟨"REQ_TRIGGER_CRITERIA", "MANDATORY", false,
         Proto.thresholdFailReason "age" "<" 16, [], [], []⟩ ∧
    Proto.evalTriggerCriteria c7Env c7PatientB c7Req {}
      = ⟨"REQ_TRIGGER_CRITERIA", "MANDATORY", false,
         "NOT_TRIGGERED: Primary trigger criteria not met", [], ["age:<:16"], []⟩ := by
  constructor
  · refine (Proto.numeric_threshold_fail_states c7Env c7PatientA c7Req {} "age:<:16" []
      "age" "<" 16 rfl (by decide) ?_).1 ⟨c7EvA, by decide, by decide, by decide⟩
    intro e he hsrc v hv
    have he' : e = c7EvA := by simpa [c7PatientA] using he
    rw [he'] at hv
    have hv' : v = 45 := by
      have h45 : some (45 : Rat) = some v := by
        rw [← hv]
        decide
      simpa using h45.symm
    rw [hv']
    show decide ((45 : Rat) < 16) = false
    rw [decide_eq_false_iff_not]
    norm_num
  · refine (Proto.numeric_threshold_fail_states c7Env c7PatientB c7Req {} "age:<:16" []
      "age" "<" 16 rfl (by decide) ?_).2 ?_
    · intro e he hsrc v hv
      have he' : e = c7EvB := by simpa [c7PatientB] using he
      rw [he'] at hv
      rw [show c7Env.extract "age" c7EvB.text = none from rfl] at hv
      exact Option.noConfusion hv
    · intro e he hsrc
      have he' : e = c7EvB := by simpa [c7PatientB] using he
      rw [he']
      rfl
